import Mathlib

/-!
A shallow embedding of bug-generator.c.

`src/code/to-sanitize/bug-generator.c` is a console menu that triggers one
memory-safety violation per selection.  The violations themselves are
undefined behaviour in C, so the embedding does not try to say what the
machine does with them.  It records instead what the program *asks* of the
machine: every function of the file is a state transformer that appends the
memory events and `printf` calls it performs, in program order, to a trace.

Conventions of the model:

* `malloc` succeeds and hands out a fresh heap region each time;
* the process can end inside a scenario at two places: at the return of
  `stack_buffer_overflow`, whose frame the copy has overrun, and at the read
  through the pointer to the dead local in `use_after_return`.  Whether it
  does is the answer of the platform, kept in the state as `fatal`; a
  function in which the process can end says in its result whether it came
  back to its caller.  The other undefined actions are carried out and
  control goes on;
* the contents of memory are kept only for the process-scoped segment that
  starts at `global_buffer`, addressed by byte offset from `&global_buffer[0]`;
  writes past the ten declared bytes land at offsets 10 and above of the
  same segment;
* the value a `%d` conversion prints is the value of the `load_int` event
  just before it, which the model leaves undetermined: a `printf` event
  records the format string only.
-/

namespace BugGenerator

/-! ## Data model -/

/-- The eight `void f()` scenario functions of the file. -/
inductive Scenario
  | use_after_free
  | heap_buffer_overflow
  | stack_buffer_overflow
  | global_buffer_overflow
  | use_after_return
  | use_after_scope
  | use_uninitialized
  | memory_leak
  deriving DecidableEq, Repr

/-- The objects the program addresses. -/
inductive Region
  /-- The region returned by the `id`-th call of `malloc` (counted from 0). -/
  | heap (id : Nat)
  /-- `char buffer[10]` of `stack_buffer_overflow`. -/
  | stack_buffer
  /-- `char global_buffer[10]`. -/
  | global_buffer
  /-- `int local_var` of `use_after_return_helper`. -/
  | helper_local_var
  /-- `int local_var` of the inner block of `use_after_scope`. -/
  | scope_local_var
  /-- `int uninitialized_global`. -/
  | uninitialized_global
  deriving DecidableEq, Repr

/-- What the program does, one entry per action, in program order. -/
inductive Event
  /-- Entry into a scenario function. -/
  | call (f : Scenario)
  /-- `malloc(size)` returning a pointer to `p`. -/
  | malloc (size : Nat) (p : Region)
  /-- `free(p)`. -/
  | free (p : Region)
  /-- `*p = v` for an `int *p`. -/
  | store_int (p : Region) (v : Int)
  /-- An `int` read: `*p`, or the value of an `int` variable. -/
  | load_int (p : Region)
  /-- One byte written by `strcpy` at `p + offset`. -/
  | store_byte (p : Region) (offset : Nat) (b : Nat)
  /-- The lifetime of an automatic object of `size` bytes starts. -/
  | begin_life (p : Region) (size : Nat)
  /-- The lifetime of an automatic object ends. -/
  | end_life (p : Region)
  /-- A `printf` call with this format string. -/
  | printf (fmt : String)
  deriving DecidableEq, Repr

/-- The undefined actions at which the platform may end the process. -/
inductive Hazard
  /-- The return of `stack_buffer_overflow` through the frame that its
  `strcpy` has overrun (a stack protector aborts, or the return address is
  garbage). -/
  | smashed_return
  /-- The read `*p` in `use_after_return`, where `p` is what the helper
  returned for the address of its dead local (a compiler may pass a null
  pointer). -/
  | dead_local_read
  deriving DecidableEq, Repr

/-- How a pass of the loop, or a run of several passes, ends. -/
inductive Outcome
  /-- Control is at the end of the loop body: the loop goes round again. -/
  | running
  /-- The function `main` executed `return v`. -/
  | returned (v : Int)
  /-- The process ended inside a scenario function. -/
  | killed
  deriving DecidableEq, Repr

/-- State of the process as far as the program can tell. -/
structure State where
  /-- Unread characters of standard input; the end of the list is end of input. -/
  stdin : List Char
  /-- The local `char opt` of `main`. -/
  opt : Char
  /-- Bytes of the process-scoped segment, by offset from `&global_buffer[0]`. -/
  global_mem : Nat → Nat
  /-- Number of `malloc` calls so far. -/
  heap_count : Nat
  /-- Heap regions allocated and not yet released. -/
  live : List Nat
  /-- Everything done so far, oldest first. -/
  trace : List Event
  /-- The answer of the platform: `true` when it ends the process there. -/
  fatal : Hazard → Bool

/-- The value of `sizeof(int)` on the usual ABIs. -/
def sizeof_int : Nat := 4

/-- The declared size of `char global_buffer[10]`. -/
def global_buffer_size : Nat := 10

/-! ## The C library, as far as the file uses it -/

/-- Append one event to the trace. -/
def emit (e : Event) (s : State) : State :=
  { s with trace := s.trace ++ [e] }

/-- The `printf` call with format string `fmt`. -/
def printf (fmt : String) (s : State) : State :=
  emit (Event.printf fmt) s

/-- The `malloc(size)` call: a fresh region, now live. -/
def malloc (size : Nat) (s : State) : Region × State :=
  (Region.heap s.heap_count,
   emit (Event.malloc size (Region.heap s.heap_count))
     { s with heap_count := s.heap_count + 1, live := s.live ++ [s.heap_count] })

/-- The `free(p)` call: the region is no longer live. -/
def free (p : Region) (s : State) : State :=
  emit (Event.free p) { s with live := s.live.filter (fun i => Region.heap i ≠ p) }

/-- The assignment `*p = v` through an `int *`. -/
def store_int (p : Region) (v : Int) (s : State) : State :=
  emit (Event.store_int p v) s

/-- An `int` read of `p`. -/
def load_int (p : Region) (s : State) : State :=
  emit (Event.load_int p) s

/-- One byte store at `p + offset`; the process-scoped segment keeps it. -/
def store_byte (p : Region) (offset : Nat) (b : Nat) (s : State) : State :=
  emit (Event.store_byte p offset b)
    (if p = Region.global_buffer then
      { s with global_mem := fun a => if a = offset then b else s.global_mem a }
     else s)

/-- The bytes of a C string literal: its characters and the terminating 0. -/
def c_string (src : String) : List Nat :=
  src.toList.map Char.toNat ++ [0]

/-- Copy `bytes` to `dst + i`, `dst + i + 1`, ... with no bound on `dst`. -/
def copy_bytes (dst : Region) : Nat → List Nat → State → State
  | _, [], s => s
  | i, b :: bs, s => copy_bytes dst (i + 1) bs (store_byte dst i b s)

/-- The `strcpy(dst, src)` call for a string literal `src`. -/
def strcpy (dst : Region) (src : String) (s : State) : State :=
  copy_bytes dst 0 (c_string src) s

/-- The C `isspace` test in the "C" locale. -/
def isspace (c : Char) : Bool :=
  c = ' ' || c = '\t' || c = '\n' || c = '\x0b' || c = '\x0c' || c = '\r'

/-- The directive `" "` of a `scanf` format: drop leading white space. -/
def skip_whitespace : List Char → List Char
  | [] => []
  | c :: cs => if isspace c then skip_whitespace cs else c :: cs

/-- The call `scanf(" %c", &opt)`.  At end of input nothing is assigned. -/
def scanf_opt (s : State) : State :=
  match skip_whitespace s.stdin with
  | [] => { s with stdin := [] }
  | c :: rest => { s with stdin := rest, opt := c }

/-! ## The scenario functions -/

/-- Lines 5-10. -/
def use_after_free (s : State) : State :=
  let s := emit (Event.call Scenario.use_after_free) s
  let (p, s) := malloc sizeof_int s
  let s := store_int p 42 s
  let s := free p s
  let s := load_int p s
  printf "Pointer was freed, now it contains: %d\n" s

/-- Lines 12-16. -/
def heap_buffer_overflow (s : State) : State :=
  let s := emit (Event.call Scenario.heap_buffer_overflow) s
  let (buffer, s) := malloc 10 s
  let s := strcpy buffer "Too long for the heap buffer, will overflow!" s
  free buffer s

/-- Lines 18-21.  The second component says whether the function came back
to its caller: the copy has overrun the frame it returns through. -/
def stack_buffer_overflow (s : State) : State × Bool :=
  let s := emit (Event.call Scenario.stack_buffer_overflow) s
  let s := emit (Event.begin_life Region.stack_buffer 10) s
  let s := strcpy Region.stack_buffer "Too long for the stack buffer, will overflow!" s
  let s := emit (Event.end_life Region.stack_buffer) s
  (s, !s.fatal Hazard.smashed_return)

/-- Lines 23-26. -/
def global_buffer_overflow (s : State) : State :=
  let s := emit (Event.call Scenario.global_buffer_overflow) s
  strcpy Region.global_buffer "Too long for the global buffer, will overflow!" s

/-- Lines 28-31: the address of a local whose lifetime ends at the return. -/
def use_after_return_helper (s : State) : Region × State :=
  let s := emit (Event.begin_life Region.helper_local_var sizeof_int) s
  let s := store_int Region.helper_local_var 42 s
  (Region.helper_local_var, emit (Event.end_life Region.helper_local_var) s)

/-- Lines 33-36.  The second component says whether the function came back
to its caller: the process can end at the read `*p`, before the `printf`. -/
def use_after_return (s : State) : State × Bool :=
  let s := emit (Event.call Scenario.use_after_return) s
  let (p, s) := use_after_return_helper s
  let s := load_int p s
  if s.fatal Hazard.dead_local_read then (s, false)
  else (printf "Use after return: %d\n" s, true)

/-- Lines 38-45. -/
def use_after_scope (s : State) : State :=
  let s := emit (Event.call Scenario.use_after_scope) s
  let s := emit (Event.begin_life Region.scope_local_var sizeof_int) s
  let s := store_int Region.scope_local_var 42 s
  let p := Region.scope_local_var
  let s := emit (Event.end_life Region.scope_local_var) s
  let s := load_int p s
  printf "Use after scope: %d\n" s

/-- Lines 47-50. -/
def use_uninitialized (s : State) : State :=
  let s := emit (Event.call Scenario.use_uninitialized) s
  let s := load_int Region.uninitialized_global s
  printf "Uninitialized value: %d\n" s

/-- Lines 52-56. -/
def memory_leak (s : State) : State :=
  let s := emit (Event.call Scenario.memory_leak) s
  let (p, s) := malloc sizeof_int s
  store_int p 42 s

/-! ## main -/

/-- Lines 62-72: the ten `printf` calls that show the menu. -/
def print_menu (s : State) : State :=
  let s := printf "\nSelect a bug to generate:\n" s
  let s := printf "1. Use after free\n" s
  let s := printf "2. Heap buffer overflow\n" s
  let s := printf "3. Stack buffer overflow\n" s
  let s := printf "4. Global buffer overflow\n" s
  let s := printf "5. Use after return\n" s
  let s := printf "6. Use after scope\n" s
  let s := printf "7. Use uninitialized\n" s
  let s := printf "8. 1000 memory leaks\n" s
  let s := printf "X. Exit\n" s
  printf "Enter your choice: " s

/-- Lines 98-99: `for (int i = 0; i < 1000; i++) memory_leak();`. -/
def memory_leak_loop (s : State) : State :=
  (List.range 1000).foldl (fun s _ => memory_leak s) s

/-- Control after a call in a `case` of the `switch`: on to the `break` when
the callee came back, nowhere when the process ended in it. -/
def after_call (r : State × Bool) : State × Outcome :=
  match r with
  | (s, true) => (s, Outcome.running)
  | (s, false) => (s, Outcome.killed)

/-- Lines 75-106: the `switch (opt)`.  The second component is `returned v`
when the statement executes `return v`, `running` when control leaves the
`switch` by `break` or by falling off its end, and `killed` when the process
ended in the scenario called. -/
def switch_opt (s : State) : State × Outcome :=
  match s.opt with
  | '1' => (use_after_free s, Outcome.running)
  | '2' => (heap_buffer_overflow s, Outcome.running)
  | '3' => after_call (stack_buffer_overflow s)
  | '4' => (global_buffer_overflow s, Outcome.running)
  | '5' => after_call (use_after_return s)
  | '6' => (use_after_scope s, Outcome.running)
  | '7' => (use_uninitialized s, Outcome.running)
  | '8' => (memory_leak_loop s, Outcome.running)
  | 'X' => (s, Outcome.returned 0)
  | 'x' => (s, Outcome.returned 0)
  | _ => (printf "Unknown option, do not trick me!\n" s, Outcome.running)

/-- Lines 62-107: one pass through the body of `while (1)`.  The second
component is `returned v` when `main` returned `v` in this pass, `killed`
when the process ended in it, and `running` when the loop goes round again;
only then is "Done" printed. -/
def iteration (s : State) : State × Outcome :=
  let s := print_menu s
  let s := scanf_opt s
  match switch_opt s with
  | (s, Outcome.running) => (printf "Done\n" s, Outcome.running)
  | (s, Outcome.returned v) => (s, Outcome.returned v)
  | (s, Outcome.killed) => (s, Outcome.killed)

/-- Lines 61-108: at most `fuel` passes of `while (1)`.  The result `running`
means the loop is still running after `fuel` passes. -/
def main_loop : Nat → State → State × Outcome
  | 0, s => (s, Outcome.running)
  | fuel + 1, s =>
    match iteration s with
    | (s, Outcome.running) => main_loop fuel s
    | (s, Outcome.returned v) => (s, Outcome.returned v)
    | (s, Outcome.killed) => (s, Outcome.killed)

/-- The state at process start: nothing allocated, static storage zeroed,
`opt` holding whatever `opt0` its stack slot happens to contain, on a
platform that ends the process at both hazards (a build with a stack
protector whose compiler passes a null pointer for the address of a dead
local). -/
def initial (input : List Char) (opt0 : Char) : State :=
  { stdin := input, opt := opt0, global_mem := fun _ => 0,
    heap_count := 0, live := [], trace := [], fatal := fun _ => true }

/-- Lines 58-111, run for at most `fuel` passes of the loop. -/
def main (fuel : Nat) (input : List Char) (opt0 : Char) : State × Outcome :=
  main_loop fuel (initial input opt0)

/-! ## Reading a trace -/

/-- The events added to the trace between state `s` and a later state `t`. -/
def events_since (s t : State) : List Event :=
  t.trace.drop s.trace.length

/-- The scenario functions entered, in order. -/
def calls (es : List Event) : List Scenario :=
  es.filterMap (fun e => match e with
    | Event.call f => some f
    | _ => none)

/-- The sizes and regions of the `malloc` calls, in order. -/
def mallocs (es : List Event) : List (Nat × Region) :=
  es.filterMap (fun e => match e with
    | Event.malloc n p => some (n, p)
    | _ => none)

/-- The regions passed to `free`, in order. -/
def frees (es : List Event) : List Region :=
  es.filterMap (fun e => match e with
    | Event.free p => some p
    | _ => none)

/-- The offsets of the byte stores into region `p`, in order. -/
def offsets_written (p : Region) (es : List Event) : List Nat :=
  es.filterMap (fun e => match e with
    | Event.store_byte q i _ => if q = p then some i else none
    | _ => none)

/-- The events that touch memory: allocation, release, store and load. -/
def is_memory_event : Event → Bool
  | Event.malloc _ _ => true
  | Event.free _ => true
  | Event.store_int _ _ => true
  | Event.load_int _ => true
  | Event.store_byte _ _ _ => true
  | _ => false

/-- The `printf` of the notice for a selection the `switch` does not know. -/
def unknown_notice : Event :=
  Event.printf "Unknown option, do not trick me!\n"

/-- The `printf` that closes a pass of the loop. -/
def done_notice : Event :=
  Event.printf "Done\n"

/-- The trace of the `printf` calls of the menu and the prompt. -/
def menu_events : List Event :=
  [Event.printf "\nSelect a bug to generate:\n",
   Event.printf "1. Use after free\n",
   Event.printf "2. Heap buffer overflow\n",
   Event.printf "3. Stack buffer overflow\n",
   Event.printf "4. Global buffer overflow\n",
   Event.printf "5. Use after return\n",
   Event.printf "6. Use after scope\n",
   Event.printf "7. Use uninitialized\n",
   Event.printf "8. 1000 memory leaks\n",
   Event.printf "X. Exit\n",
   Event.printf "Enter your choice: "]

/-- The byte stores of a copy of `bytes` to `dst + i` onwards. -/
def byte_stores (dst : Region) : Nat → List Nat → List Event
  | _, [] => []
  | i, b :: bs => Event.store_byte dst i b :: byte_stores dst (i + 1) bs

/-- The three events of one `memory_leak` call that allocates region `h`. -/
def leak_events (h : Nat) : List Event :=
  [Event.call Scenario.memory_leak,
   Event.malloc sizeof_int (Region.heap h),
   Event.store_int (Region.heap h) 42]

/-- The characters that successive `scanf(" %c", &opt)` calls assign to `opt`:
the input without its white space. -/
def selections (input : List Char) : List Char :=
  input.filter (fun c => !isspace c)

/-- The selections on which `main` returns. -/
def is_exit_key (c : Char) : Bool :=
  c = 'X' || c = 'x'

/-- What a pass of the loop did about its selection. -/
inductive Handled
  /-- A scenario function was entered. -/
  | scenario (f : Scenario)
  /-- The notice for an unknown selection was printed. -/
  | unrecognized
  deriving DecidableEq, Repr

/-- The scenario entries and unknown-selection notices of a trace, in order. -/
def handled (es : List Event) : List Handled :=
  es.filterMap (fun e => match e with
    | Event.call f => some (Handled.scenario f)
    | Event.printf fmt =>
      if fmt = "Unknown option, do not trick me!\n" then some Handled.unrecognized else none
    | _ => none)

/-- The menu as the specification words it: what each selection other than
the exit key stands for.  Key 8 is the bulk leak, a thousand entries into
`memory_leak`; any key not on the menu is answered by the notice. -/
def spec_handling (c : Char) : List Handled :=
  if c = '1' then [Handled.scenario Scenario.use_after_free]
  else if c = '2' then [Handled.scenario Scenario.heap_buffer_overflow]
  else if c = '3' then [Handled.scenario Scenario.stack_buffer_overflow]
  else if c = '4' then [Handled.scenario Scenario.global_buffer_overflow]
  else if c = '5' then [Handled.scenario Scenario.use_after_return]
  else if c = '6' then [Handled.scenario Scenario.use_after_scope]
  else if c = '7' then [Handled.scenario Scenario.use_uninitialized]
  else if c = '8' then List.replicate 1000 (Handled.scenario Scenario.memory_leak)
  else [Handled.unrecognized]

/-- The events of `use_after_free` when `h` regions were allocated before. -/
def use_after_free_events (h : Nat) : List Event :=
  [Event.call Scenario.use_after_free,
   Event.malloc sizeof_int (Region.heap h),
   Event.store_int (Region.heap h) 42,
   Event.free (Region.heap h),
   Event.load_int (Region.heap h),
   Event.printf "Pointer was freed, now it contains: %d\n"]

/-- The events of `heap_buffer_overflow` when `h` regions were allocated before. -/
def heap_buffer_overflow_events (h : Nat) : List Event :=
  Event.call Scenario.heap_buffer_overflow ::
  Event.malloc 10 (Region.heap h) ::
  (byte_stores (Region.heap h) 0 (c_string "Too long for the heap buffer, will overflow!") ++
   [Event.free (Region.heap h)])

/-- The events of `stack_buffer_overflow`. -/
def stack_buffer_overflow_events : List Event :=
  Event.call Scenario.stack_buffer_overflow ::
  Event.begin_life Region.stack_buffer 10 ::
  (byte_stores Region.stack_buffer 0
     (c_string "Too long for the stack buffer, will overflow!") ++
   [Event.end_life Region.stack_buffer])

/-- The events of `global_buffer_overflow`. -/
def global_buffer_overflow_events : List Event :=
  Event.call Scenario.global_buffer_overflow ::
  byte_stores Region.global_buffer 0
    (c_string "Too long for the global buffer, will overflow!")

/-- The events of `use_after_return`; `dies` says that the process ends at
the read, so that the `printf` is not reached. -/
def use_after_return_events (dies : Bool) : List Event :=
  [Event.call Scenario.use_after_return,
   Event.begin_life Region.helper_local_var sizeof_int,
   Event.store_int Region.helper_local_var 42,
   Event.end_life Region.helper_local_var,
   Event.load_int Region.helper_local_var] ++
  if dies then [] else [Event.printf "Use after return: %d\n"]

/-- The events of `use_after_scope`. -/
def use_after_scope_events : List Event :=
  [Event.call Scenario.use_after_scope,
   Event.begin_life Region.scope_local_var sizeof_int,
   Event.store_int Region.scope_local_var 42,
   Event.end_life Region.scope_local_var,
   Event.load_int Region.scope_local_var,
   Event.printf "Use after scope: %d\n"]

/-- The events of `use_uninitialized`. -/
def use_uninitialized_events : List Event :=
  [Event.call Scenario.use_uninitialized,
   Event.load_int Region.uninitialized_global,
   Event.printf "Uninitialized value: %d\n"]

/-- The events of `n` successive `memory_leak` calls after `h` allocations. -/
def leak_loop_events (h n : Nat) : List Event :=
  (List.range n).flatMap (fun i => leak_events (h + i))

/-- Whether the process ends in the scenario that the value `c` of `opt`
selects, on the platform of state `s`. -/
def killed_by (s : State) (c : Char) : Bool :=
  (c = '3' && s.fatal Hazard.smashed_return) || (c = '5' && s.fatal Hazard.dead_local_read)

/-- The events of the `switch` for the value `c` of `opt`, after `h`
allocations, on a platform where the read in `use_after_return` is fatal or
not according to `dies`. -/
def switch_events (c : Char) (h : Nat) (dies : Bool) : List Event :=
  if c = '1' then use_after_free_events h
  else if c = '2' then heap_buffer_overflow_events h
  else if c = '3' then stack_buffer_overflow_events
  else if c = '4' then global_buffer_overflow_events
  else if c = '5' then use_after_return_events dies
  else if c = '6' then use_after_scope_events
  else if c = '7' then use_uninitialized_events
  else if c = '8' then leak_loop_events h 1000
  else if c = 'X' then []
  else if c = 'x' then []
  else [unknown_notice]

/-- The value of `opt` that the `switch` of a pass sees: the character
`scanf` read, or the old value when the read failed. -/
def opt_after_read (s : State) : Char :=
  (skip_whitespace s.stdin).headD s.opt

/-- The events of one pass of the loop body that starts in state `s`. -/
def pass_events (s : State) : List Event :=
  events_since s (iteration s).1

/-! ## Facts about the library model -/

theorem events_since_append (s t : State) (d : List Event)
    (h : t.trace = s.trace ++ d) : events_since s t = d := by
  simp [events_since, h]

theorem print_menu_eq (s : State) :
    print_menu s = { s with trace := s.trace ++ menu_events } := by
  simp [print_menu, printf, emit, menu_events]

theorem copy_bytes_trace (dst : Region) (bs : List Nat) :
    ∀ (i : Nat) (s : State),
      (copy_bytes dst i bs s).trace = s.trace ++ byte_stores dst i bs := by
  induction bs with
  | nil => intro i s; simp [copy_bytes, byte_stores]
  | cons b bs ih =>
    intro i s
    simp only [copy_bytes, byte_stores]
    rw [ih]
    by_cases hd : dst = Region.global_buffer <;> simp [store_byte, emit, hd]

theorem copy_bytes_frame (dst : Region) (bs : List Nat) :
    ∀ (i : Nat) (s : State),
      (copy_bytes dst i bs s).stdin = s.stdin ∧ (copy_bytes dst i bs s).opt = s.opt ∧
      (copy_bytes dst i bs s).heap_count = s.heap_count ∧
      (copy_bytes dst i bs s).live = s.live ∧
      (copy_bytes dst i bs s).fatal = s.fatal := by
  induction bs with
  | nil => intro i s; simp [copy_bytes]
  | cons b bs ih =>
    intro i s
    simp only [copy_bytes]
    obtain ⟨h1, h2, h3, h4, h5⟩ := ih (i + 1) (store_byte dst i b s)
    rw [h1, h2, h3, h4, h5]
    by_cases hd : dst = Region.global_buffer <;> simp [store_byte, emit, hd]

theorem copy_bytes_global_mem (bs : List Nat) :
    ∀ (i : Nat) (s : State) (a : Nat),
      (copy_bytes Region.global_buffer i bs s).global_mem a =
        if i ≤ a ∧ a < i + bs.length then bs.getD (a - i) 0 else s.global_mem a := by
  induction bs with
  | nil =>
    intro i s a
    have h : ¬ (i ≤ a ∧ a < i + ([] : List Nat).length) := by
      simp only [List.length_nil]; omega
    rw [if_neg h]
    rfl
  | cons b bs ih =>
    intro i s a
    simp only [copy_bytes]
    rw [ih]
    by_cases h1 : i + 1 ≤ a ∧ a < i + 1 + bs.length
    · have h2 : i ≤ a ∧ a < i + (b :: bs).length := by
        simp only [List.length_cons]; omega
      have h3 : a - i = (a - (i + 1)) + 1 := by omega
      rw [if_pos h1, if_pos h2, h3, List.getD_cons_succ]
    · rw [if_neg h1]
      by_cases h2 : a = i
      · subst h2
        simp [store_byte, emit]
      · have h3 : ¬ (i ≤ a ∧ a < i + (b :: bs).length) := by
          simp only [List.length_cons]; omega
        rw [if_neg h3]
        simp [store_byte, emit, h2]

/-! ## Facts about the scenario functions -/

theorem use_after_free_trace (s : State) :
    (use_after_free s).trace = s.trace ++ use_after_free_events s.heap_count := by
  simp [use_after_free, malloc, store_int, free, load_int, printf, emit, use_after_free_events]

theorem heap_buffer_overflow_trace (s : State) :
    (heap_buffer_overflow s).trace = s.trace ++ heap_buffer_overflow_events s.heap_count := by
  simp [heap_buffer_overflow, malloc, strcpy, free, emit, copy_bytes_trace,
    heap_buffer_overflow_events]

theorem stack_buffer_overflow_trace (s : State) :
    (stack_buffer_overflow s).1.trace = s.trace ++ stack_buffer_overflow_events := by
  simp [stack_buffer_overflow, strcpy, emit, copy_bytes_trace, stack_buffer_overflow_events]

theorem global_buffer_overflow_trace (s : State) :
    (global_buffer_overflow s).trace = s.trace ++ global_buffer_overflow_events := by
  simp [global_buffer_overflow, strcpy, emit, copy_bytes_trace, global_buffer_overflow_events]

theorem use_after_return_trace (s : State) :
    (use_after_return s).1.trace =
      s.trace ++ use_after_return_events (s.fatal Hazard.dead_local_read) := by
  by_cases hf : s.fatal Hazard.dead_local_read = true <;>
    simp [use_after_return, use_after_return_helper, store_int, load_int, printf, emit,
      use_after_return_events, hf]

theorem use_after_scope_trace (s : State) :
    (use_after_scope s).trace = s.trace ++ use_after_scope_events := by
  simp [use_after_scope, store_int, load_int, printf, emit, use_after_scope_events]

theorem use_uninitialized_trace (s : State) :
    (use_uninitialized s).trace = s.trace ++ use_uninitialized_events := by
  simp [use_uninitialized, load_int, printf, emit, use_uninitialized_events]

theorem memory_leak_trace (s : State) :
    (memory_leak s).trace = s.trace ++ leak_events s.heap_count := by
  simp [memory_leak, malloc, store_int, emit, leak_events]

theorem use_after_free_frame (s : State) :
    (use_after_free s).stdin = s.stdin ∧ (use_after_free s).opt = s.opt ∧
    (use_after_free s).fatal = s.fatal := by
  simp [use_after_free, malloc, store_int, free, load_int, printf, emit]

theorem heap_buffer_overflow_frame (s : State) :
    (heap_buffer_overflow s).stdin = s.stdin ∧ (heap_buffer_overflow s).opt = s.opt ∧
    (heap_buffer_overflow s).fatal = s.fatal := by
  simp [heap_buffer_overflow, malloc, strcpy, free, emit, copy_bytes_frame]

theorem stack_buffer_overflow_frame (s : State) :
    (stack_buffer_overflow s).1.stdin = s.stdin ∧ (stack_buffer_overflow s).1.opt = s.opt ∧
    (stack_buffer_overflow s).1.fatal = s.fatal ∧
    (stack_buffer_overflow s).2 = !s.fatal Hazard.smashed_return := by
  simp [stack_buffer_overflow, strcpy, emit, copy_bytes_frame]

theorem global_buffer_overflow_frame (s : State) :
    (global_buffer_overflow s).stdin = s.stdin ∧ (global_buffer_overflow s).opt = s.opt ∧
    (global_buffer_overflow s).heap_count = s.heap_count ∧
    (global_buffer_overflow s).live = s.live ∧
    (global_buffer_overflow s).fatal = s.fatal := by
  simp [global_buffer_overflow, strcpy, emit, copy_bytes_frame]

theorem use_after_return_frame (s : State) :
    (use_after_return s).1.stdin = s.stdin ∧ (use_after_return s).1.opt = s.opt ∧
    (use_after_return s).1.fatal = s.fatal ∧
    (use_after_return s).2 = !s.fatal Hazard.dead_local_read := by
  by_cases hf : s.fatal Hazard.dead_local_read = true <;>
    simp [use_after_return, use_after_return_helper, store_int, load_int, printf, emit, hf]

theorem use_after_scope_frame (s : State) :
    (use_after_scope s).stdin = s.stdin ∧ (use_after_scope s).opt = s.opt ∧
    (use_after_scope s).fatal = s.fatal := by
  simp [use_after_scope, store_int, load_int, printf, emit]

theorem use_uninitialized_frame (s : State) :
    (use_uninitialized s).stdin = s.stdin ∧ (use_uninitialized s).opt = s.opt ∧
    (use_uninitialized s).fatal = s.fatal := by
  simp [use_uninitialized, load_int, printf, emit]

theorem memory_leak_frame (s : State) :
    (memory_leak s).heap_count = s.heap_count + 1 ∧
    (memory_leak s).live = s.live ++ [s.heap_count] ∧
    (memory_leak s).stdin = s.stdin ∧ (memory_leak s).opt = s.opt ∧
    (memory_leak s).global_mem = s.global_mem ∧
    (memory_leak s).fatal = s.fatal := by
  simp [memory_leak, malloc, store_int, emit]

theorem leak_n_spec (n : Nat) (s : State) :
    ((List.range n).foldl (fun s _ => memory_leak s) s).trace =
        s.trace ++ leak_loop_events s.heap_count n ∧
    ((List.range n).foldl (fun s _ => memory_leak s) s).heap_count = s.heap_count + n ∧
    ((List.range n).foldl (fun s _ => memory_leak s) s).live =
        s.live ++ (List.range n).map (fun i => s.heap_count + i) ∧
    ((List.range n).foldl (fun s _ => memory_leak s) s).stdin = s.stdin ∧
    ((List.range n).foldl (fun s _ => memory_leak s) s).opt = s.opt ∧
    ((List.range n).foldl (fun s _ => memory_leak s) s).global_mem = s.global_mem ∧
    ((List.range n).foldl (fun s _ => memory_leak s) s).fatal = s.fatal := by
  induction n with
  | zero => simp [leak_loop_events]
  | succ n ih =>
    obtain ⟨h1, h2, h3, h4, h5, h6, h7⟩ := ih
    rw [List.range_succ, List.foldl_append]
    simp only [List.foldl_cons, List.foldl_nil]
    obtain ⟨f1, f2, f3, f4, f5, f6⟩ :=
      memory_leak_frame ((List.range n).foldl (fun s _ => memory_leak s) s)
    refine ⟨?_, ?_, ?_, ?_, ?_, ?_, ?_⟩
    · rw [memory_leak_trace, h1, h2]; simp [leak_loop_events, List.range_succ]
    · rw [f1, h2]; omega
    · rw [f2, h2, h3]; simp [List.range_succ]
    · rw [f3, h4]
    · rw [f4, h5]
    · rw [f5, h6]
    · rw [f6, h7]

/-! ## Facts about `main` -/

theorem after_call_eq (r : State × Bool) :
    after_call r = (r.1, if r.2 then Outcome.running else Outcome.killed) := by
  rcases r with ⟨s, b⟩
  cases b <;> rfl

theorem switch_opt_cases (s : State) :
    (s.opt = '1' ∧ switch_opt s = (use_after_free s, Outcome.running)) ∨
    (s.opt = '2' ∧ switch_opt s = (heap_buffer_overflow s, Outcome.running)) ∨
    (s.opt = '3' ∧ switch_opt s = after_call (stack_buffer_overflow s)) ∨
    (s.opt = '4' ∧ switch_opt s = (global_buffer_overflow s, Outcome.running)) ∨
    (s.opt = '5' ∧ switch_opt s = after_call (use_after_return s)) ∨
    (s.opt = '6' ∧ switch_opt s = (use_after_scope s, Outcome.running)) ∨
    (s.opt = '7' ∧ switch_opt s = (use_uninitialized s, Outcome.running)) ∨
    (s.opt = '8' ∧ switch_opt s = (memory_leak_loop s, Outcome.running)) ∨
    (s.opt = 'X' ∧ switch_opt s = (s, Outcome.returned 0)) ∨
    (s.opt = 'x' ∧ switch_opt s = (s, Outcome.returned 0)) ∨
    (s.opt ∉ ['1', '2', '3', '4', '5', '6', '7', '8', 'X', 'x'] ∧
      switch_opt s = (printf "Unknown option, do not trick me!\n" s, Outcome.running)) := by
  by_cases h1 : s.opt = '1'
  · simp [switch_opt, h1]
  by_cases h2 : s.opt = '2'
  · simp [switch_opt, h2]
  by_cases h3 : s.opt = '3'
  · simp [switch_opt, h3]
  by_cases h4 : s.opt = '4'
  · simp [switch_opt, h4]
  by_cases h5 : s.opt = '5'
  · simp [switch_opt, h5]
  by_cases h6 : s.opt = '6'
  · simp [switch_opt, h6]
  by_cases h7 : s.opt = '7'
  · simp [switch_opt, h7]
  by_cases h8 : s.opt = '8'
  · simp [switch_opt, h8]
  by_cases h9 : s.opt = 'X'
  · simp [switch_opt, h9]
  by_cases h10 : s.opt = 'x'
  · simp [switch_opt, h10]
  have hd : switch_opt s =
      (printf "Unknown option, do not trick me!\n" s, Outcome.running) := by
    unfold switch_opt
    split <;> simp_all
  simp [h1, h2, h3, h4, h5, h6, h7, h8, h9, h10, hd]

theorem switch_opt_spec (s : State) :
    (switch_opt s).1.trace =
      s.trace ++ switch_events s.opt s.heap_count (s.fatal Hazard.dead_local_read) ∧
    (switch_opt s).1.stdin = s.stdin ∧ (switch_opt s).1.opt = s.opt ∧
    (switch_opt s).1.fatal = s.fatal ∧
    (switch_opt s).2 = if is_exit_key s.opt then Outcome.returned 0
      else if killed_by s s.opt then Outcome.killed else Outcome.running := by
  rcases switch_opt_cases s with h | h | h | h | h | h | h | h | h | h | h <;>
    obtain ⟨hc, hs⟩ := h <;> rw [hs]
  · simp [hc, switch_events, is_exit_key, killed_by, use_after_free_trace,
      use_after_free_frame]
  · simp [hc, switch_events, is_exit_key, killed_by, heap_buffer_overflow_trace,
      heap_buffer_overflow_frame]
  · obtain ⟨f1, f2, f3, f4⟩ := stack_buffer_overflow_frame s
    rw [after_call_eq, f4]
    simp only []
    rw [stack_buffer_overflow_trace, f1, f2, f3]
    by_cases hf : s.fatal Hazard.smashed_return = true <;>
      simp [hc, switch_events, is_exit_key, killed_by, hf]
  · simp [hc, switch_events, is_exit_key, killed_by, global_buffer_overflow_trace,
      global_buffer_overflow_frame]
  · obtain ⟨f1, f2, f3, f4⟩ := use_after_return_frame s
    rw [after_call_eq, f4]
    simp only []
    rw [use_after_return_trace, f1, f2, f3]
    by_cases hf : s.fatal Hazard.dead_local_read = true <;>
      simp [hc, switch_events, is_exit_key, killed_by, hf]
  · simp [hc, switch_events, is_exit_key, killed_by, use_after_scope_trace,
      use_after_scope_frame]
  · simp [hc, switch_events, is_exit_key, killed_by, use_uninitialized_trace,
      use_uninitialized_frame]
  · obtain ⟨l1, -, -, l4, l5, -, l7⟩ := leak_n_spec 1000 s
    simp [hc, switch_events, is_exit_key, killed_by, memory_leak_loop, l1, l4, l5, l7]
  · simp [hc, switch_events, is_exit_key]
  · simp [hc, switch_events, is_exit_key]
  · simp at hc
    simp [hc, switch_events, is_exit_key, killed_by, printf, emit, unknown_notice]

theorem scanf_opt_spec (s : State) :
    (scanf_opt s).opt = opt_after_read s ∧
    (scanf_opt s).stdin = (skip_whitespace s.stdin).tail ∧
    (scanf_opt s).trace = s.trace ∧ (scanf_opt s).heap_count = s.heap_count ∧
    (scanf_opt s).live = s.live ∧ (scanf_opt s).global_mem = s.global_mem ∧
    (scanf_opt s).fatal = s.fatal := by
  unfold scanf_opt opt_after_read
  cases skip_whitespace s.stdin <;> simp

theorem iteration_spec (s : State) :
    (iteration s).1.trace = s.trace ++ (menu_events ++
        (switch_events (opt_after_read s) s.heap_count (s.fatal Hazard.dead_local_read) ++
          if is_exit_key (opt_after_read s) || killed_by s (opt_after_read s) then []
          else [done_notice])) ∧
    (iteration s).1.stdin = (skip_whitespace s.stdin).tail ∧
    (iteration s).1.opt = opt_after_read s ∧
    (iteration s).1.fatal = s.fatal ∧
    (iteration s).2 = if is_exit_key (opt_after_read s) then Outcome.returned 0
      else if killed_by s (opt_after_read s) then Outcome.killed else Outcome.running := by
  obtain ⟨a1, a2, a3, a4, -, -, a7⟩ := scanf_opt_spec (print_menu s)
  obtain ⟨b1, b2, b3, b5, b4⟩ := switch_opt_spec (scanf_opt (print_menu s))
  have hm : opt_after_read (print_menu s) = opt_after_read s := by
    simp [opt_after_read, print_menu_eq]
  have e1 : (print_menu s).trace = s.trace ++ menu_events := by simp [print_menu_eq]
  have e2 : (print_menu s).heap_count = s.heap_count := by simp [print_menu_eq]
  have e3 : (print_menu s).stdin = s.stdin := by simp [print_menu_eq]
  have e4 : (print_menu s).fatal = s.fatal := by simp [print_menu_eq]
  have hk : killed_by (scanf_opt (print_menu s)) (opt_after_read s) =
      killed_by s (opt_after_read s) := by
    simp [killed_by, a7, e4]
  rw [a1, hm, hk] at b4
  rw [a1, hm] at b1 b3
  rw [a3, a4, a7, e1, e2, e4] at b1
  rw [a2, e3] at b2
  rw [a7, e4] at b5
  unfold iteration
  simp only []
  rcases hsw : switch_opt (scanf_opt (print_menu s)) with ⟨t, r⟩
  rw [hsw] at b1 b2 b3 b4 b5
  simp only [] at b1 b2 b3 b4 b5
  by_cases hx : is_exit_key (opt_after_read s) = true
  · rw [if_pos hx] at b4
    subst b4
    simp [hx, b1, b2, b3, b5]
  · rw [if_neg hx] at b4
    by_cases hd : killed_by s (opt_after_read s) = true
    · rw [if_pos hd] at b4
      subst b4
      simp [hx, hd, b1, b2, b3, b5]
    · rw [if_neg hd] at b4
      subst b4
      simp [hx, hd, b1, b2, b3, b5, printf, emit, done_notice]

theorem opt_after_read_of_read (s : State) (c : Char) (rest : List Char)
    (h : skip_whitespace s.stdin = c :: rest) : opt_after_read s = c := by
  simp [opt_after_read, h]

theorem opt_after_read_of_eof (s : State) (h : skip_whitespace s.stdin = []) :
    opt_after_read s = s.opt := by
  simp [opt_after_read, h]

theorem main_loop_succ_running (fuel : Nat) (s : State)
    (h : (iteration s).2 = Outcome.running) :
    main_loop (fuel + 1) s = main_loop fuel (iteration s).1 := by
  rcases hi : iteration s with ⟨t, r⟩
  rw [hi] at h
  simp only [] at h
  subst h
  simp [main_loop, hi]

theorem main_loop_succ_return (fuel : Nat) (s : State) (v : Int)
    (h : (iteration s).2 = Outcome.returned v) :
    main_loop (fuel + 1) s = ((iteration s).1, Outcome.returned v) := by
  rcases hi : iteration s with ⟨t, r⟩
  rw [hi] at h
  simp only [] at h
  subst h
  simp [main_loop, hi]

theorem main_loop_succ_killed (fuel : Nat) (s : State)
    (h : (iteration s).2 = Outcome.killed) :
    main_loop (fuel + 1) s = ((iteration s).1, Outcome.killed) := by
  rcases hi : iteration s with ⟨t, r⟩
  rw [hi] at h
  simp only [] at h
  subst h
  simp [main_loop, hi]

/-! ## Facts about reading a trace -/

theorem calls_append (a b : List Event) : calls (a ++ b) = calls a ++ calls b := by
  simp [calls, List.filterMap_append]

theorem mallocs_append (a b : List Event) : mallocs (a ++ b) = mallocs a ++ mallocs b := by
  simp [mallocs, List.filterMap_append]

theorem frees_append (a b : List Event) : frees (a ++ b) = frees a ++ frees b := by
  simp [frees, List.filterMap_append]

theorem handled_append (a b : List Event) : handled (a ++ b) = handled a ++ handled b := by
  simp [handled, List.filterMap_append]

theorem offsets_written_append (p : Region) (a b : List Event) :
    offsets_written p (a ++ b) = offsets_written p a ++ offsets_written p b := by
  simp [offsets_written, List.filterMap_append]

theorem byte_stores_projections (dst : Region) (bs : List Nat) :
    ∀ i : Nat, calls (byte_stores dst i bs) = [] ∧ mallocs (byte_stores dst i bs) = [] ∧
      frees (byte_stores dst i bs) = [] ∧ handled (byte_stores dst i bs) = [] ∧
      offsets_written dst (byte_stores dst i bs) = List.range' i bs.length ∧
      unknown_notice ∉ byte_stores dst i bs ∧ done_notice ∉ byte_stores dst i bs := by
  induction bs with
  | nil => intro i; simp [byte_stores, calls, mallocs, frees, handled, offsets_written]
  | cons b bs ih =>
    intro i
    obtain ⟨h1, h2, h3, h4, h5, h6, h7⟩ := ih (i + 1)
    simp only [calls, mallocs, frees, handled, offsets_written] at h1 h2 h3 h4 h5
    simp [byte_stores, calls, mallocs, frees, handled, offsets_written, h1, h2, h3, h4, h5,
      h6, h7, List.range', unknown_notice, done_notice]
    constructor
    · simpa [unknown_notice] using h6
    · simpa [done_notice] using h7

theorem leak_loop_projections (h : Nat) (n : Nat) :
    calls (leak_loop_events h n) = List.replicate n Scenario.memory_leak ∧
    mallocs (leak_loop_events h n) =
      (List.range n).map (fun i => (sizeof_int, Region.heap (h + i))) ∧
    frees (leak_loop_events h n) = [] ∧
    handled (leak_loop_events h n) =
      List.replicate n (Handled.scenario Scenario.memory_leak) ∧
    unknown_notice ∉ leak_loop_events h n ∧ done_notice ∉ leak_loop_events h n := by
  induction n with
  | zero => simp [leak_loop_events, calls, mallocs, frees, handled]
  | succ n ih =>
    obtain ⟨h1, h2, h3, h4, h5, h6⟩ := ih
    have e : leak_loop_events h (n + 1) = leak_loop_events h n ++ leak_events (h + n) := by
      simp [leak_loop_events, List.range_succ]
    rw [e, calls_append, mallocs_append, frees_append, handled_append, h1, h2, h3, h4]
    refine ⟨?_, ?_, ?_, ?_, ?_, ?_⟩
    · simp [calls, leak_events, List.replicate_succ']
    · simp [mallocs, leak_events, List.range_succ]
    · simp [frees, leak_events]
    · simp [handled, leak_events, List.replicate_succ']
    · simp only [List.mem_append, not_or]
      exact ⟨h5, by simp [leak_events, unknown_notice]⟩
    · simp only [List.mem_append, not_or]
      exact ⟨h6, by simp [leak_events, done_notice]⟩

theorem handled_heap_buffer_overflow_events (h : Nat) :
    handled (heap_buffer_overflow_events h) =
      [Handled.scenario Scenario.heap_buffer_overflow] := by
  unfold heap_buffer_overflow_events
  generalize c_string _ = bs
  have e : ∀ l : List Event, Event.call Scenario.heap_buffer_overflow ::
      Event.malloc 10 (Region.heap h) :: l =
      [Event.call Scenario.heap_buffer_overflow, Event.malloc 10 (Region.heap h)] ++ l :=
    fun _ => rfl
  rw [e, handled_append, handled_append, (byte_stores_projections _ bs 0).2.2.2.1]
  simp [handled]

theorem handled_stack_buffer_overflow_events :
    handled stack_buffer_overflow_events =
      [Handled.scenario Scenario.stack_buffer_overflow] := by
  unfold stack_buffer_overflow_events
  generalize c_string _ = bs
  have e : ∀ l : List Event, Event.call Scenario.stack_buffer_overflow ::
      Event.begin_life Region.stack_buffer 10 :: l =
      [Event.call Scenario.stack_buffer_overflow,
       Event.begin_life Region.stack_buffer 10] ++ l :=
    fun _ => rfl
  rw [e, handled_append, handled_append, (byte_stores_projections _ bs 0).2.2.2.1]
  simp [handled]

theorem handled_global_buffer_overflow_events :
    handled global_buffer_overflow_events =
      [Handled.scenario Scenario.global_buffer_overflow] := by
  unfold global_buffer_overflow_events
  generalize c_string _ = bs
  have e : ∀ l : List Event, Event.call Scenario.global_buffer_overflow :: l =
      [Event.call Scenario.global_buffer_overflow] ++ l :=
    fun _ => rfl
  rw [e, handled_append, (byte_stores_projections _ bs 0).2.2.2.1]
  simp [handled]

theorem handled_switch_events (c : Char) (h : Nat) (dies : Bool) :
    handled (switch_events c h dies) = if is_exit_key c then [] else spec_handling c := by
  unfold switch_events spec_handling
  by_cases h1 : c = '1'
  · subst h1; simp [is_exit_key, handled, use_after_free_events]
  by_cases h2 : c = '2'
  · subst h2; simp [is_exit_key, handled_heap_buffer_overflow_events]
  by_cases h3 : c = '3'
  · subst h3; simp [is_exit_key, handled_stack_buffer_overflow_events]
  by_cases h4 : c = '4'
  · subst h4; simp [is_exit_key, handled_global_buffer_overflow_events]
  by_cases h5 : c = '5'
  · subst h5; cases dies <;> simp [is_exit_key, handled, use_after_return_events]
  by_cases h6 : c = '6'
  · subst h6; simp [is_exit_key, handled, use_after_scope_events]
  by_cases h7 : c = '7'
  · subst h7; simp [is_exit_key, handled, use_uninitialized_events]
  by_cases h8 : c = '8'
  · subst h8; simp [is_exit_key, (leak_loop_projections h 1000).2.2.2.1]
  by_cases h9 : c = 'X'
  · subst h9; simp [is_exit_key, handled]
  by_cases h10 : c = 'x'
  · subst h10; simp [is_exit_key, handled]
  simp [h1, h2, h3, h4, h5, h6, h7, h8, h9, h10, is_exit_key, handled, unknown_notice]

theorem handled_menu_events : handled menu_events = [] := by
  simp [handled, menu_events]

theorem calls_eq_handled (es : List Event) :
    calls es = (handled es).filterMap (fun x => match x with
      | Handled.scenario f => some f
      | Handled.unrecognized => none) := by
  induction es with
  | nil => simp [calls, handled]
  | cons e es ih =>
    simp only [calls, handled] at ih
    cases e with
    | printf fmt =>
      by_cases hf : fmt = "Unknown option, do not trick me!\n" <;>
        simp [calls, handled, List.filterMap_cons, hf, ih]
    | _ => simp [calls, handled, List.filterMap_cons, ih]

theorem iteration_events (s : State) :
    events_since s (iteration s).1 = menu_events ++
      (switch_events (opt_after_read s) s.heap_count (s.fatal Hazard.dead_local_read) ++
        if is_exit_key (opt_after_read s) || killed_by s (opt_after_read s) then []
        else [done_notice]) :=
  events_since_append s _ _ (iteration_spec s).1

theorem handled_iteration (s : State) :
    handled (events_since s (iteration s).1) =
      if is_exit_key (opt_after_read s) then [] else spec_handling (opt_after_read s) := by
  rw [iteration_events, handled_append, handled_append, handled_menu_events,
    handled_switch_events]
  have hd : handled (if is_exit_key (opt_after_read s) || killed_by s (opt_after_read s)
      then [] else [done_notice]) = [] := by
    split <;> simp [handled, done_notice]
  rw [hd, List.append_nil, List.nil_append]

theorem c_string_lengths :
    (c_string "Too long for the heap buffer, will overflow!").length = 45 ∧
    (c_string "Too long for the stack buffer, will overflow!").length = 46 ∧
    (c_string "Too long for the global buffer, will overflow!").length = 47 := by
  refine ⟨?_, ?_, ?_⟩ <;> rfl

theorem global_buffer_overflow_mem (s : State) (a : Nat) :
    (global_buffer_overflow s).global_mem a =
      if a < 47 then (c_string "Too long for the global buffer, will overflow!").getD a 0
      else s.global_mem a := by
  unfold global_buffer_overflow strcpy
  simp only []
  rw [copy_bytes_global_mem, c_string_lengths.2.2]
  simp [emit]

theorem heap_buffer_overflow_projections (h : Nat) :
    mallocs (heap_buffer_overflow_events h) = [(10, Region.heap h)] ∧
    offsets_written (Region.heap h) (heap_buffer_overflow_events h) = List.range 45 ∧
    frees (heap_buffer_overflow_events h) = [Region.heap h] ∧
    (heap_buffer_overflow_events h).getLast? = some (Event.free (Region.heap h)) := by
  have hl := c_string_lengths.1
  unfold heap_buffer_overflow_events
  revert hl
  generalize c_string _ = bs
  intro hl
  obtain ⟨-, p2, p3, -, p5, -, -⟩ := byte_stores_projections (Region.heap h) bs 0
  have e : ∀ l : List Event, Event.call Scenario.heap_buffer_overflow ::
      Event.malloc 10 (Region.heap h) :: l =
      [Event.call Scenario.heap_buffer_overflow, Event.malloc 10 (Region.heap h)] ++ l :=
    fun _ => rfl
  refine ⟨?_, ?_, ?_, ?_⟩
  · rw [e, mallocs_append, mallocs_append, p2]; simp [mallocs]
  · rw [e, offsets_written_append, offsets_written_append, p5, hl, List.range_eq_range']
    simp [offsets_written]
  · rw [e, frees_append, frees_append, p3]; simp [frees]
  · rw [e, ← List.append_assoc, List.getLast?_append]; simp

theorem stack_buffer_overflow_projections :
    offsets_written Region.stack_buffer stack_buffer_overflow_events = List.range 46 ∧
    frees stack_buffer_overflow_events = [] ∧ mallocs stack_buffer_overflow_events = [] ∧
    (∀ n, Event.begin_life Region.stack_buffer n ∈ stack_buffer_overflow_events ↔ n = 10) := by
  have hl := c_string_lengths.2.1
  unfold stack_buffer_overflow_events
  revert hl
  generalize c_string _ = bs
  intro hl
  obtain ⟨-, p2, p3, -, p5, -, -⟩ := byte_stores_projections Region.stack_buffer bs 0
  have e : ∀ l : List Event, Event.call Scenario.stack_buffer_overflow ::
      Event.begin_life Region.stack_buffer 10 :: l =
      [Event.call Scenario.stack_buffer_overflow,
       Event.begin_life Region.stack_buffer 10] ++ l :=
    fun _ => rfl
  have hb : ∀ (n i : Nat) (l : List Nat),
      Event.begin_life Region.stack_buffer n ∉ byte_stores Region.stack_buffer i l := by
    intro n i l
    induction l generalizing i with
    | nil => simp [byte_stores]
    | cons b l ih => simp [byte_stores, ih]
  refine ⟨?_, ?_, ?_, ?_⟩
  · rw [e, offsets_written_append, offsets_written_append, p5, hl, List.range_eq_range']
    simp [offsets_written]
  · rw [e, frees_append, frees_append, p3]; simp [frees]
  · rw [e, mallocs_append, mallocs_append, p2]; simp [mallocs]
  · intro n
    simp [hb]

theorem global_buffer_overflow_projections :
    offsets_written Region.global_buffer global_buffer_overflow_events = List.range 47 ∧
    frees global_buffer_overflow_events = [] ∧ mallocs global_buffer_overflow_events = [] := by
  have hl := c_string_lengths.2.2
  unfold global_buffer_overflow_events
  revert hl
  generalize c_string _ = bs
  intro hl
  obtain ⟨-, p2, p3, -, p5, -, -⟩ := byte_stores_projections Region.global_buffer bs 0
  have e : ∀ l : List Event, Event.call Scenario.global_buffer_overflow :: l =
      [Event.call Scenario.global_buffer_overflow] ++ l :=
    fun _ => rfl
  refine ⟨?_, ?_, ?_⟩
  · rw [e, offsets_written_append, p5, hl, List.range_eq_range']
    simp [offsets_written]
  · rw [e, frees_append, p3]; simp [frees]
  · rw [e, mallocs_append, p2]; simp [mallocs]

theorem pass_events_eq (s : State) :
    pass_events s = menu_events ++
      (switch_events (opt_after_read s) s.heap_count (s.fatal Hazard.dead_local_read) ++
        if is_exit_key (opt_after_read s) || killed_by s (opt_after_read s) then []
        else [done_notice]) :=
  iteration_events s

theorem handled_pass (s : State) :
    handled (pass_events s) =
      if is_exit_key (opt_after_read s) then [] else spec_handling (opt_after_read s) :=
  handled_iteration s

theorem unknown_notice_mem_iff (es : List Event) :
    unknown_notice ∈ es ↔ Handled.unrecognized ∈ handled es := by
  have key : ∀ e : Event, (match e with
      | Event.call f => some (Handled.scenario f)
      | Event.printf fmt =>
        if fmt = "Unknown option, do not trick me!\n" then some Handled.unrecognized else none
      | _ => none) = some Handled.unrecognized ↔ e = unknown_notice := by
    intro e
    cases e with
    | printf fmt =>
      by_cases hf : fmt = "Unknown option, do not trick me!\n" <;> simp [hf, unknown_notice]
    | _ => simp [unknown_notice]
  unfold handled
  rw [List.mem_filterMap]
  constructor
  · intro h
    exact ⟨unknown_notice, h, (key _).2 rfl⟩
  · rintro ⟨e, he, hk⟩
    rw [(key e).1 hk] at he
    exact he

theorem result_of_pass (s : State) :
    (iteration s).2 = if is_exit_key (opt_after_read s) then Outcome.returned 0
      else if killed_by s (opt_after_read s) then Outcome.killed else Outcome.running :=
  (iteration_spec s).2.2.2.2

theorem spec_handling_unknown (c : Char)
    (h : c ∉ ['1', '2', '3', '4', '5', '6', '7', '8', 'X', 'x']) :
    spec_handling c = [Handled.unrecognized] ∧ is_exit_key c = false ∧
    (∀ n dies, switch_events c n dies = [unknown_notice]) ∧
    ∀ s, killed_by s c = false := by
  simp at h
  simp [spec_handling, is_exit_key, switch_events, killed_by, h]

theorem spec_handling_key (c : Char) (f : Scenario)
    (h : (c, f) ∈ [('1', Scenario.use_after_free), ('2', Scenario.heap_buffer_overflow),
      ('3', Scenario.stack_buffer_overflow), ('4', Scenario.global_buffer_overflow),
      ('5', Scenario.use_after_return), ('6', Scenario.use_after_scope),
      ('7', Scenario.use_uninitialized), ('8', Scenario.memory_leak)]) :
    spec_handling c = List.replicate (if c = '8' then 1000 else 1) (Handled.scenario f) ∧
    is_exit_key c = false := by
  simp at h
  rcases h with h | h | h | h | h | h | h | h <;> obtain ⟨hc, hf⟩ := h <;> subst hc hf <;>
    simp [spec_handling, is_exit_key]

theorem calls_of_handled_replicate (es : List Event) (n : Nat) (f : Scenario)
    (h : handled es = List.replicate n (Handled.scenario f)) :
    calls es = List.replicate n f ∧ unknown_notice ∉ es := by
  constructor
  · rw [calls_eq_handled, h]
    induction n with
    | zero => simp
    | succ n ih => simp [List.replicate_succ, List.filterMap_cons, ih]
  · rw [unknown_notice_mem_iff, h]
    simp

theorem iteration_of_leak_key (s : State) (rest : List Char)
    (hread : skip_whitespace s.stdin = '8' :: rest) :
    (iteration s).1.live = s.live ++ (List.range 1000).map (fun i => s.heap_count + i) ∧
    (iteration s).1.heap_count = s.heap_count + 1000 := by
  have hsc : scanf_opt (print_menu s) =
      { s with stdin := rest, opt := '8', trace := s.trace ++ menu_events } := by
    simp [scanf_opt, print_menu_eq, hread]
  have hsw : switch_opt { s with stdin := rest, opt := '8', trace := s.trace ++ menu_events } =
      (memory_leak_loop { s with stdin := rest, opt := '8', trace := s.trace ++ menu_events },
       Outcome.running) := by
    simp [switch_opt]
  obtain ⟨-, l2, l3, -, -, -, -⟩ := leak_n_spec 1000
    { s with stdin := rest, opt := '8', trace := s.trace ++ menu_events }
  unfold iteration
  simp only [hsc, hsw]
  simp only [printf, emit, memory_leak_loop]
  exact ⟨l3, l2⟩

theorem done_not_in_menu : done_notice ∉ menu_events := by
  simp [done_notice, menu_events]

theorem menu_projections :
    calls menu_events = [] ∧ mallocs menu_events = [] ∧ frees menu_events = [] := by
  simp [calls, mallocs, frees, menu_events]

theorem done_projections :
    calls [done_notice] = [] ∧ mallocs [done_notice] = [] ∧ frees [done_notice] = [] := by
  simp [calls, mallocs, frees, done_notice]

theorem switch_events_of_exit (c : Char) (h : Nat) (dies : Bool)
    (hx : is_exit_key c = true) : switch_events c h dies = [] := by
  have hc : c = 'X' ∨ c = 'x' := by simpa [is_exit_key] using hx
  rcases hc with hc | hc <;> simp [switch_events, hc]

/-! ## Facts about the whole loop -/

theorem selections_skip_whitespace (l : List Char) :
    selections (skip_whitespace l) = selections l := by
  induction l with
  | nil => rfl
  | cons c cs ih =>
    by_cases hc : isspace c = true
    · simp [skip_whitespace, hc, selections, List.filter_cons]
      simpa [selections] using ih
    · simp [skip_whitespace, hc]

theorem skip_whitespace_head (l : List Char) (c : Char) (rest : List Char)
    (h : skip_whitespace l = c :: rest) : isspace c = false := by
  induction l with
  | nil => simp [skip_whitespace] at h
  | cons d ds ih =>
    by_cases hd : isspace d = true
    · simp [skip_whitespace, hd] at h
      exact ih h
    · simp [skip_whitespace, hd] at h
      rw [← h.1]
      simpa using hd

theorem read_of_selections (l : List Char) (c : Char) (sel : List Char)
    (h : selections l = c :: sel) :
    ∃ rest, skip_whitespace l = c :: rest ∧ selections rest = sel := by
  rw [← selections_skip_whitespace] at h
  cases hs : skip_whitespace l with
  | nil => rw [hs] at h; simp [selections] at h
  | cons d rest =>
    have hd := skip_whitespace_head l d rest hs
    rw [hs] at h
    simp [selections, List.filter_cons, hd] at h
    refine ⟨rest, ?_, ?_⟩
    · rw [h.1]
    · simpa [selections] using h.2

theorem eof_of_selections (l : List Char) (h : selections l = []) :
    skip_whitespace l = [] := by
  rw [← selections_skip_whitespace] at h
  cases hs : skip_whitespace l with
  | nil => rfl
  | cons d rest =>
    have hd := skip_whitespace_head l d rest hs
    rw [hs] at h
    simp [selections, List.filter_cons, hd] at h

theorem iteration_trace (s : State) : (iteration s).1.trace = s.trace ++ pass_events s := by
  rw [pass_events_eq]
  exact (iteration_spec s).1

theorem killed_by_iteration (s : State) (c : Char) :
    killed_by (iteration s).1 c = killed_by s c := by
  simp [killed_by, (iteration_spec s).2.2.2.1]

theorem main_loop_selections (sel : List Char) :
    ∀ s : State, selections s.stdin = sel →
      (∀ c ∈ sel.takeWhile (fun c => !is_exit_key c), killed_by s c = false) →
      ∃ d, (main_loop sel.length s).1.trace = s.trace ++ d ∧
        handled d = (sel.takeWhile (fun c => !is_exit_key c)).flatMap spec_handling ∧
        (main_loop sel.length s).2 =
          (if sel.any is_exit_key then Outcome.returned 0 else Outcome.running) ∧
        selections (main_loop sel.length s).1.stdin =
          (sel.dropWhile (fun c => !is_exit_key c)).tail ∧
        (sel.any is_exit_key = true → ∀ fuel,
          (sel.takeWhile (fun c => !is_exit_key c)).length + 1 ≤ fuel →
          main_loop fuel s = main_loop sel.length s) := by
  induction sel with
  | nil =>
    intro s hs _
    refine ⟨[], ?_, ?_, ?_, ?_, ?_⟩
    · simp [main_loop]
    · simp [handled]
    · simp [main_loop]
    · simpa [main_loop] using hs
    · simp
  | cons c sel ih =>
    intro s hs hret
    obtain ⟨rest, hread, hrest⟩ := read_of_selections s.stdin c sel hs
    have ho := opt_after_read_of_read s c rest hread
    have hh := handled_pass s
    have hr := result_of_pass s
    have hst := (iteration_spec s).2.1
    have htr := iteration_trace s
    rw [ho] at hh hr
    rw [hread] at hst
    simp only [List.tail_cons] at hst
    by_cases hx : is_exit_key c = true
    · rw [if_pos hx] at hh hr
      have hm : ∀ fuel, main_loop (fuel + 1) s = ((iteration s).1, Outcome.returned 0) :=
        fun fuel => main_loop_succ_return fuel s 0 hr
      refine ⟨pass_events s, ?_, ?_, ?_, ?_, ?_⟩
      · simp only [List.length_cons]
        rw [hm]
        exact htr
      · simp [hh, hx]
      · simp only [List.length_cons]
        rw [hm]
        simp [hx]
      · simp only [List.length_cons]
        rw [hm]
        simp [hx, hst, hrest]
      · intro _ fuel hf
        simp only [List.length_cons]
        obtain ⟨k, rfl⟩ : ∃ k, fuel = k + 1 := ⟨fuel - 1, by omega⟩
        rw [hm, hm]
    · have hx2 : is_exit_key c = false := by simpa using hx
      have htw : List.takeWhile (fun c => !is_exit_key c) (c :: sel) =
          c :: List.takeWhile (fun c => !is_exit_key c) sel := by
        simp [List.takeWhile_cons, hx2]
      rw [htw] at hret
      have hk : killed_by s c = false := hret c (List.mem_cons_self _ _)
      rw [hx2] at hh
      rw [hx2, hk] at hr
      simp only [Bool.false_eq_true, if_false] at hh hr
      have hm : ∀ fuel, main_loop (fuel + 1) s = main_loop fuel (iteration s).1 :=
        fun fuel => main_loop_succ_running fuel s hr
      obtain ⟨d, i1, i2, i3, i4, i5⟩ := ih (iteration s).1 (by rw [hst, hrest])
        (fun e he => by
          rw [killed_by_iteration]
          exact hret e (List.mem_cons_of_mem _ he))
      refine ⟨pass_events s ++ d, ?_, ?_, ?_, ?_, ?_⟩
      · simp only [List.length_cons]
        rw [hm, i1, htr, List.append_assoc]
      · rw [handled_append, hh, i2]
        simp [hx2]
      · simp only [List.length_cons]
        rw [hm, i3]
        simp [hx2]
      · simp only [List.length_cons]
        rw [hm, i4]
        simp [hx2]
      · intro hany fuel hf
        have hany2 : sel.any is_exit_key = true := by
          simpa [hx2] using hany
        simp only [List.length_cons]
        rw [htw, List.length_cons] at hf
        obtain ⟨k, rfl⟩ : ∃ k, fuel = k + 1 := ⟨fuel - 1, by omega⟩
        rw [hm, hm]
        exact i5 hany2 k (by omega)

theorem stuck_at_eof (fuel : Nat) :
    ∀ s : State, skip_whitespace s.stdin = [] → is_exit_key s.opt = false →
      killed_by s s.opt = false → (main_loop fuel s).2 = Outcome.running := by
  induction fuel with
  | zero => intro s _ _ _; rfl
  | succ n ih =>
    intro s heof hx hk
    have ho := opt_after_read_of_eof s heof
    have hr := result_of_pass s
    obtain ⟨-, hst, hopt, -, -⟩ := iteration_spec s
    rw [ho, hx, hk] at hr
    simp only [Bool.false_eq_true, if_false] at hr
    rw [main_loop_succ_running n s hr]
    apply ih
    · rw [hst, heof]; rfl
    · rw [hopt, ho]; exact hx
    · rw [killed_by_iteration, hopt, ho]; exact hk

theorem no_exit_never_returns (sel : List Char) :
    ∀ s : State, selections s.stdin = sel → sel.any is_exit_key = false →
      (∀ c ∈ sel, killed_by s c = false) →
      (sel = [] → is_exit_key s.opt = false ∧ killed_by s s.opt = false) →
      ∀ fuel, (main_loop fuel s).2 = Outcome.running := by
  induction sel with
  | nil =>
    intro s hs _ _ hopt fuel
    exact stuck_at_eof fuel s (eof_of_selections _ hs) (hopt rfl).1 (hopt rfl).2
  | cons c sel ih =>
    intro s hs hany hret _ fuel
    cases fuel with
    | zero => rfl
    | succ k =>
      obtain ⟨rest, hread, hrest⟩ := read_of_selections s.stdin c sel hs
      have ho := opt_after_read_of_read s c rest hread
      have hr := result_of_pass s
      obtain ⟨-, hst, hopt, -, -⟩ := iteration_spec s
      have hx : is_exit_key c = false := by
        simp only [List.any_cons, Bool.or_eq_false_iff] at hany
        exact hany.1
      have hany2 : sel.any is_exit_key = false := by
        simp only [List.any_cons, Bool.or_eq_false_iff] at hany
        exact hany.2
      have hk : killed_by s c = false := hret c (List.mem_cons_self _ _)
      rw [ho, hx, hk] at hr
      simp only [Bool.false_eq_true, if_false] at hr
      rw [main_loop_succ_running k s hr]
      apply ih (iteration s).1 _ hany2
      · intro e he
        rw [killed_by_iteration]
        exact hret e (List.mem_cons_of_mem _ he)
      · intro _
        rw [hopt, ho, killed_by_iteration]
        exact ⟨hx, hk⟩
      · rw [hst, hread]
        exact hrest

theorem any_exit_iff (sel : List Char) :
    sel.any is_exit_key = true ↔ ('X' ∈ sel ∨ 'x' ∈ sel) := by
  simp only [List.any_eq_true, is_exit_key, Bool.or_eq_true, decide_eq_true_eq]
  constructor
  · rintro ⟨c, hc, h | h⟩
    · left; rw [← h]; exact hc
    · right; rw [← h]; exact hc
  · rintro (h | h)
    · exact ⟨'X', h, Or.inl rfl⟩
    · exact ⟨'x', h, Or.inr rfl⟩

theorem takeWhile_of_no_exit (sel : List Char) (h : sel.any is_exit_key = false) :
    sel.takeWhile (fun c => !is_exit_key c) = sel := by
  induction sel with
  | nil => rfl
  | cons c sel ih =>
    simp only [List.any_cons, Bool.or_eq_false_iff] at h
    simp [List.takeWhile_cons, h.1, ih h.2]

theorem done_not_in_killed_switch (s : State) (c : Char) (h : Nat)
    (hk : killed_by s c = true) :
    done_notice ∉ switch_events c h (s.fatal Hazard.dead_local_read) := by
  have hb := (byte_stores_projections Region.stack_buffer
    (c_string "Too long for the stack buffer, will overflow!") 0).2.2.2.2.2.2
  simp only [killed_by, Bool.or_eq_true, Bool.and_eq_true, decide_eq_true_eq] at hk
  rcases hk with ⟨hc, -⟩ | ⟨hc, hf⟩
  · subst hc
    have e : switch_events '3' h (s.fatal Hazard.dead_local_read) =
        stack_buffer_overflow_events := by
      simp [switch_events]
    rw [e]
    unfold stack_buffer_overflow_events
    simp only [List.mem_cons, List.mem_append, List.mem_singleton, not_or]
    exact ⟨by simp [done_notice], by simp [done_notice], hb, by simp [done_notice]⟩
  · subst hc
    have e : switch_events '5' h (s.fatal Hazard.dead_local_read) =
        use_after_return_events true := by
      simp [switch_events, hf]
    rw [e]
    simp [use_after_return_events, done_notice]

theorem result_cases (s : State) (c : Char) (ho : opt_after_read s = c)
    (hx : is_exit_key c = false) :
    (iteration s).2 = (if killed_by s c then Outcome.killed else Outcome.running) := by
  have hr := result_of_pass s
  rw [ho, hx] at hr
  simpa using hr

/-! ## The scenarios -/

/-- C7: every invocation of `use_after_free` performs, in this order and with
nothing else touching memory in between, the allocation of `sizeof(int)`
bytes, the write of 42 to the region, the release of the region and the
read of the region through the same pointer. -/
theorem use_after_free_order (s : State) :
    events_since s (use_after_free s) =
      [Event.call Scenario.use_after_free,
       Event.malloc sizeof_int (Region.heap s.heap_count),
       Event.store_int (Region.heap s.heap_count) 42,
       Event.free (Region.heap s.heap_count),
       Event.load_int (Region.heap s.heap_count),
       Event.printf "Pointer was freed, now it contains: %d\n"] ∧
    (events_since s (use_after_free s)).filter is_memory_event =
      [Event.malloc sizeof_int (Region.heap s.heap_count),
       Event.store_int (Region.heap s.heap_count) 42,
       Event.free (Region.heap s.heap_count),
       Event.load_int (Region.heap s.heap_count)] := by
  rw [events_since_append s _ _ (use_after_free_trace s)]
  simp [use_after_free_events, is_memory_event]

/-- C9: in `heap_buffer_overflow`, `stack_buffer_overflow` and
`global_buffer_overflow` the destination has a capacity of exactly 10 bytes
and the unchecked copy writes 45, 46 and 47 bytes, at offsets 0 to 44, 45
and 46: more than the capacity, so offsets 10 and above are written.
`heap_buffer_overflow` releases its region exactly once, as its last
action, after the copy. -/
theorem overflow_exceeds_capacity (s : State) :
    (mallocs (events_since s (heap_buffer_overflow s)) = [(10, Region.heap s.heap_count)] ∧
     offsets_written (Region.heap s.heap_count) (events_since s (heap_buffer_overflow s)) =
       List.range 45 ∧
     10 < (offsets_written (Region.heap s.heap_count)
       (events_since s (heap_buffer_overflow s))).length ∧
     frees (events_since s (heap_buffer_overflow s)) = [Region.heap s.heap_count] ∧
     (events_since s (heap_buffer_overflow s)).getLast? =
       some (Event.free (Region.heap s.heap_count))) ∧
    ((∀ n, Event.begin_life Region.stack_buffer n ∈
       events_since s (stack_buffer_overflow s).1 ↔ n = 10) ∧
     offsets_written Region.stack_buffer (events_since s (stack_buffer_overflow s).1) =
       List.range 46 ∧
     10 < (offsets_written Region.stack_buffer
       (events_since s (stack_buffer_overflow s).1)).length) ∧
    (global_buffer_size = 10 ∧
     offsets_written Region.global_buffer (events_since s (global_buffer_overflow s)) =
       List.range 47 ∧
     global_buffer_size < (offsets_written Region.global_buffer
       (events_since s (global_buffer_overflow s))).length) := by
  rw [events_since_append s _ _ (heap_buffer_overflow_trace s),
    events_since_append s _ _ (stack_buffer_overflow_trace s),
    events_since_append s _ _ (global_buffer_overflow_trace s)]
  obtain ⟨a1, a2, a3, a4⟩ := heap_buffer_overflow_projections s.heap_count
  obtain ⟨b1, -, -, b4⟩ := stack_buffer_overflow_projections
  obtain ⟨c1, -, -⟩ := global_buffer_overflow_projections
  rw [a1, a2, a3, a4, b1, c1]
  refine ⟨⟨rfl, rfl, by simp, rfl, rfl⟩, ⟨b4, rfl, by simp⟩, rfl, rfl, ?_⟩
  simp [global_buffer_size]

/-- C8: every invocation of `global_buffer_overflow` performs the same 47
byte stores (the string and its terminator) from offset 0 of
`global_buffer`, whatever the state, and a second invocation right after a
first leaves the process-scoped memory, and everything else but the trace,
as the first left it. -/
theorem global_buffer_overflow_idempotent (s t : State) :
    events_since s (global_buffer_overflow s) = events_since t (global_buffer_overflow t) ∧
    events_since (global_buffer_overflow s) (global_buffer_overflow (global_buffer_overflow s)) =
      events_since s (global_buffer_overflow s) ∧
    offsets_written Region.global_buffer (events_since s (global_buffer_overflow s)) =
      List.range 47 ∧
    (∀ a, a < 47 → (global_buffer_overflow s).global_mem a =
      (c_string "Too long for the global buffer, will overflow!").getD a 0) ∧
    (∀ a, 47 ≤ a → (global_buffer_overflow s).global_mem a = s.global_mem a) ∧
    (global_buffer_overflow (global_buffer_overflow s)).global_mem =
      (global_buffer_overflow s).global_mem ∧
    (global_buffer_overflow (global_buffer_overflow s)).heap_count =
      (global_buffer_overflow s).heap_count ∧
    (global_buffer_overflow (global_buffer_overflow s)).live =
      (global_buffer_overflow s).live ∧
    (global_buffer_overflow (global_buffer_overflow s)).stdin =
      (global_buffer_overflow s).stdin ∧
    (global_buffer_overflow (global_buffer_overflow s)).opt =
      (global_buffer_overflow s).opt ∧
    (global_buffer_overflow (global_buffer_overflow s)).fatal =
      (global_buffer_overflow s).fatal := by
  have hs := events_since_append s _ _ (global_buffer_overflow_trace s)
  have ht := events_since_append t _ _ (global_buffer_overflow_trace t)
  have hss := events_since_append (global_buffer_overflow s) _ _
    (global_buffer_overflow_trace (global_buffer_overflow s))
  obtain ⟨f1, f2, f3, f4, f5⟩ := global_buffer_overflow_frame (global_buffer_overflow s)
  refine ⟨by rw [hs, ht], by rw [hs, hss], ?_, ?_, ?_, ?_, f3, f4, f1, f2, f5⟩
  · rw [hs]; exact global_buffer_overflow_projections.1
  · intro a ha
    rw [global_buffer_overflow_mem, if_pos ha]
  · intro a ha
    rw [global_buffer_overflow_mem, if_neg (by omega)]
  · funext a
    rw [global_buffer_overflow_mem (global_buffer_overflow s) a]
    by_cases ha : a < 47
    · rw [if_pos ha, global_buffer_overflow_mem, if_pos ha]
    · rw [if_neg ha]

/-- Witness of C8: at process start the call leaves byte 111, the letter o
of "for", at offset 10, the first one past the ten declared bytes. -/
theorem global_buffer_overflow_idempotent_witness :
    10 < 47 ∧
    (global_buffer_overflow (initial [] 'a')).global_mem 10 = 111 ∧
    (global_buffer_overflow (global_buffer_overflow (initial [] 'a'))).global_mem =
      (global_buffer_overflow (initial [] 'a')).global_mem :=
  ⟨by decide,
   (global_buffer_overflow_idempotent (initial [] 'a') (initial [] 'a')).2.2.2.1 10
     (by decide),
   (global_buffer_overflow_idempotent (initial [] 'a') (initial [] 'a')).2.2.2.2.2.1⟩

/-! ## One pass of the selector loop -/

/-- Counterexample to C1: on the input "3", at process start on a platform
with a stack protector, the pass reads `3` and enters
`stack_buffer_overflow`, and the process ends at that function's return: the
loop is not running afterwards. -/
theorem overrun_return_ends_the_loop :
    skip_whitespace (initial ['3'] 'a').stdin = ['3'] ∧
    calls (pass_events (initial ['3'] 'a')) = [Scenario.stack_buffer_overflow] ∧
    (iteration (initial ['3'] 'a')).2 = Outcome.killed ∧
    (main_loop 2 (initial ['3'] 'a')).2 = Outcome.killed := by
  decide

/-- C1 (amended): a pass of the loop that reads the key `c` of a scenario `f`
(1 use_after_free, 2 heap_buffer_overflow, 3 stack_buffer_overflow, 4
global_buffer_overflow, 5 use_after_return, 6 use_after_scope, 7
use_uninitialized, 8 memory_leak) enters `f` (once, and a thousand times for
key 8) and no other scenario function.  When the scenario comes back to
`main` the loop goes on to its next pass; this is so for every key other
than 3 and 5.  For key 3 the process ends at the return of
`stack_buffer_overflow`, and for key 5 at the read in `use_after_return`,
where the platform makes these fatal; the loop then does not go on. -/
theorem selection_runs_its_scenario (s : State) (c : Char) (f : Scenario) (rest : List Char)
    (hkey : (c, f) ∈ [('1', Scenario.use_after_free), ('2', Scenario.heap_buffer_overflow),
      ('3', Scenario.stack_buffer_overflow), ('4', Scenario.global_buffer_overflow),
      ('5', Scenario.use_after_return), ('6', Scenario.use_after_scope),
      ('7', Scenario.use_uninitialized), ('8', Scenario.memory_leak)])
    (hread : skip_whitespace s.stdin = c :: rest) :
    calls (pass_events s) = List.replicate (if c = '8' then 1000 else 1) f ∧
    f ∈ calls (pass_events s) ∧
    (∀ g ∈ calls (pass_events s), g = f) ∧
    (c ≠ '3' → c ≠ '5' → (iteration s).2 = Outcome.running) ∧
    (c = '3' → (iteration s).2 =
      if s.fatal Hazard.smashed_return then Outcome.killed else Outcome.running) ∧
    (c = '5' → (iteration s).2 =
      if s.fatal Hazard.dead_local_read then Outcome.killed else Outcome.running) ∧
    ((iteration s).2 = Outcome.running →
      ∀ fuel, main_loop (fuel + 1) s = main_loop fuel (iteration s).1) ∧
    ((iteration s).2 = Outcome.killed →
      ∀ fuel, main_loop (fuel + 1) s = ((iteration s).1, Outcome.killed)) := by
  obtain ⟨k1, k2⟩ := spec_handling_key c f hkey
  have hc := opt_after_read_of_read s c rest hread
  have hh := handled_pass s
  have hr := result_cases s c hc k2
  rw [hc, k2] at hh
  simp only [Bool.false_eq_true, if_false] at hh
  rw [k1] at hh
  have hcalls := (calls_of_handled_replicate _ _ _ hh).1
  refine ⟨hcalls, ?_, ?_, ?_, ?_, ?_,
    fun h fuel => main_loop_succ_running fuel s h,
    fun h fuel => main_loop_succ_killed fuel s h⟩
  · rw [hcalls, List.mem_replicate]
    exact ⟨by split <;> omega, rfl⟩
  · intro g hg
    rw [hcalls] at hg
    exact List.eq_of_mem_replicate hg
  · intro h3 h5
    rw [hr]
    simp [killed_by, h3, h5]
  · intro h3
    rw [hr]
    simp [killed_by, h3]
  · intro h5
    rw [hr]
    simp [killed_by, h5]

/-- Witness of C1: the input "4" selects `global_buffer_overflow`. -/
theorem selection_runs_its_scenario_witness :
    skip_whitespace (initial ['4'] 'a').stdin = ['4'] ∧
    calls (pass_events (initial ['4'] 'a')) = [Scenario.global_buffer_overflow] ∧
    (iteration (initial ['4'] 'a')).2 = Outcome.running :=
  ⟨by decide,
   (selection_runs_its_scenario (initial ['4'] 'a') '4' Scenario.global_buffer_overflow []
      (by decide) (by decide)).1,
   (selection_runs_its_scenario (initial ['4'] 'a') '4' Scenario.global_buffer_overflow []
      (by decide) (by decide)).2.2.2.1 (by decide) (by decide)⟩

/-- C2: a pass of the loop that reads `8` enters `memory_leak` exactly 1000
times; each entry is followed by one `malloc(sizeof(int))` and one store of
42 into the new region, and nothing is released.  The pass makes 1000
allocations and 0 releases, and the 1000 regions are still allocated when
it ends. -/
theorem bulk_leak (s : State) (rest : List Char)
    (hread : skip_whitespace s.stdin = '8' :: rest) :
    pass_events s = menu_events ++
      ((List.range 1000).flatMap (fun i =>
          [Event.call Scenario.memory_leak,
           Event.malloc sizeof_int (Region.heap (s.heap_count + i)),
           Event.store_int (Region.heap (s.heap_count + i)) 42]) ++
        [done_notice]) ∧
    calls (pass_events s) = List.replicate 1000 Scenario.memory_leak ∧
    mallocs (pass_events s) =
      (List.range 1000).map (fun i => (sizeof_int, Region.heap (s.heap_count + i))) ∧
    (mallocs (pass_events s)).length = 1000 ∧
    (frees (pass_events s)).length = 0 ∧
    (iteration s).1.live = s.live ++ (List.range 1000).map (fun i => s.heap_count + i) ∧
    (iteration s).2 = Outcome.running := by
  have hc := opt_after_read_of_read s '8' rest hread
  have he := pass_events_eq s
  have hx : is_exit_key '8' = false := by simp [is_exit_key]
  have hk : killed_by s '8' = false := by simp [killed_by]
  have hr := result_cases s '8' hc hx
  rw [hc] at he
  have hsw : switch_events '8' s.heap_count (s.fatal Hazard.dead_local_read) =
      leak_loop_events s.heap_count 1000 := by
    simp [switch_events]
  rw [hsw, hx, hk] at he
  rw [hk] at hr
  simp only [Bool.false_eq_true, Bool.or_self, if_false] at he hr
  obtain ⟨p1, p2, p3, -, -, -⟩ := leak_loop_projections s.heap_count 1000
  have hm : mallocs (pass_events s) =
      (List.range 1000).map (fun i => (sizeof_int, Region.heap (s.heap_count + i))) := by
    rw [he, mallocs_append, mallocs_append, p2, menu_projections.2.1, done_projections.2.1,
      List.nil_append, List.append_nil]
  refine ⟨?_, ?_, hm, ?_, ?_, (iteration_of_leak_key s rest hread).1, hr⟩
  · rw [he]; rfl
  · rw [he, calls_append, calls_append, p1, menu_projections.1, done_projections.1,
      List.nil_append, List.append_nil]
  · rw [hm, List.length_map, List.length_range]
  · rw [he, frees_append, frees_append, p3, menu_projections.2.2, done_projections.2.2]
    rfl

/-- Witness of C2: the input "8" at process start. -/
theorem bulk_leak_witness :
    skip_whitespace (initial ['8'] 'a').stdin = ['8'] ∧
    (mallocs (pass_events (initial ['8'] 'a'))).length = 1000 ∧
    (frees (pass_events (initial ['8'] 'a'))).length = 0 :=
  ⟨by decide,
   (bulk_leak (initial ['8'] 'a') [] (by decide)).2.2.2.1,
   (bulk_leak (initial ['8'] 'a') [] (by decide)).2.2.2.2.1⟩

/-- C3: a pass of the loop that reads `X` or `x` makes `main` return 0 and
enters no scenario function (it only shows the menu); a pass that reads any
other character does not make `main` return. -/
theorem exit_key_returns_zero (s : State) (c : Char) (rest : List Char)
    (hread : skip_whitespace s.stdin = c :: rest) :
    ((c = 'X' ∨ c = 'x') →
      (iteration s).2 = Outcome.returned 0 ∧ calls (pass_events s) = [] ∧
      pass_events s = menu_events ∧
      ∀ fuel, main_loop (fuel + 1) s = ((iteration s).1, Outcome.returned 0)) ∧
    (∀ v, (iteration s).2 = Outcome.returned v → c = 'X' ∨ c = 'x') := by
  have hc := opt_after_read_of_read s c rest hread
  have he := pass_events_eq s
  have hr := result_of_pass s
  rw [hc] at he hr
  constructor
  · intro hx
    have hk : is_exit_key c = true := by
      rcases hx with h | h <;> simp [is_exit_key, h]
    rw [hk] at hr
    rw [hk, switch_events_of_exit c _ _ hk] at he
    simp only [if_true, Bool.true_or, List.append_nil, List.nil_append] at he hr
    refine ⟨hr, ?_, he, fun fuel => main_loop_succ_return fuel s 0 hr⟩
    rw [he]
    simp [calls, menu_events]
  · intro v hv
    by_cases hk : is_exit_key c = true
    · simpa [is_exit_key] using hk
    · rw [if_neg hk] at hr
      rw [hr] at hv
      split at hv <;> cases hv

/-- Witness of C3: the input "x" at process start. -/
theorem exit_key_returns_zero_witness :
    skip_whitespace (initial ['x'] 'a').stdin = ['x'] ∧
    (iteration (initial ['x'] 'a')).2 = Outcome.returned 0 ∧
    calls (pass_events (initial ['x'] 'a')) = [] :=
  ⟨by decide,
   ((exit_key_returns_zero (initial ['x'] 'a') 'x' [] (by decide)).1 (Or.inr rfl)).1,
   ((exit_key_returns_zero (initial ['x'] 'a') 'x' [] (by decide)).1 (Or.inr rfl)).2.1⟩

/-- C4: a pass of the loop that reads a character other than `1` to `8`,
`X` and `x` enters no scenario function, prints the notice "Unknown option,
do not trick me!", leaves the loop running, and the next pass starts by
printing the menu again. -/
theorem unknown_key_is_reported (s : State) (c : Char) (rest : List Char)
    (hread : skip_whitespace s.stdin = c :: rest)
    (hc : c ∉ ['1', '2', '3', '4', '5', '6', '7', '8', 'X', 'x']) :
    calls (pass_events s) = [] ∧
    pass_events s = menu_events ++ [unknown_notice, done_notice] ∧
    unknown_notice ∈ pass_events s ∧
    (iteration s).2 = Outcome.running ∧
    (∀ fuel, main_loop (fuel + 1) s = main_loop fuel (iteration s).1) ∧
    menu_events <+: pass_events (iteration s).1 := by
  obtain ⟨-, k2, k3, k4⟩ := spec_handling_unknown c hc
  have ho := opt_after_read_of_read s c rest hread
  have he := pass_events_eq s
  have hr := result_cases s c ho k2
  rw [k4] at hr
  rw [ho, k2, k3, k4] at he
  simp only [Bool.false_eq_true, Bool.or_self, if_false] at he hr
  have he2 : pass_events s = menu_events ++ [unknown_notice, done_notice] := by
    rw [he]; rfl
  refine ⟨?_, he2, ?_, hr, fun fuel => main_loop_succ_running fuel s hr, ?_⟩
  · rw [he2]
    simp [calls, menu_events, unknown_notice, done_notice]
  · rw [he2]
    simp
  · rw [pass_events_eq]
    exact List.prefix_append _ _

/-- Witness of C4: the input "9" at process start. -/
theorem unknown_key_is_reported_witness :
    skip_whitespace (initial ['9'] 'a').stdin = ['9'] ∧
    '9' ∉ ['1', '2', '3', '4', '5', '6', '7', '8', 'X', 'x'] ∧
    pass_events (initial ['9'] 'a') = menu_events ++ [unknown_notice, done_notice] :=
  ⟨by decide, by decide,
   (unknown_key_is_reported (initial ['9'] 'a') '9' [] (by decide) (by decide)).2.1⟩

/-- Counterexample to C10: on the input "5", at process start on a platform
where the read in `use_after_return` is fatal, the pass reads `5`, which is
no exit key, and the process ends in the scenario: `main` does not return
in this pass and "Done" is not printed in it. -/
theorem killed_pass_prints_no_done :
    skip_whitespace (initial ['5'] 'a').stdin = ['5'] ∧
    (iteration (initial ['5'] 'a')).2 = Outcome.killed ∧
    done_notice ∉ pass_events (initial ['5'] 'a') := by
  decide

/-- C10 (amended): "Done" is the last thing printed in every pass of the
loop after which the loop is still running, that is, every pass that
neither makes `main` return nor has the process end inside its scenario; in
a pass that read a character the `switch` does not know it comes right
after the notice for that.  It is not printed in the pass that reads `X` or
`x`, nor in a pass in which the process ends. -/
theorem done_closes_each_pass (s : State) :
    ((iteration s).2 = Outcome.running → (pass_events s).getLast? = some done_notice) ∧
    ((iteration s).2 ≠ Outcome.running → done_notice ∉ pass_events s) ∧
    (∀ c rest, skip_whitespace s.stdin = c :: rest →
      ((c = 'X' ∨ c = 'x') → done_notice ∉ pass_events s) ∧
      (¬ (c = 'X' ∨ c = 'x') → killed_by s c = false →
        (pass_events s).getLast? = some done_notice) ∧
      (c ∉ ['1', '2', '3', '4', '5', '6', '7', '8', 'X', 'x'] →
        pass_events s = menu_events ++ [unknown_notice, done_notice])) := by
  have he := pass_events_eq s
  have hr := result_of_pass s
  have hrun : is_exit_key (opt_after_read s) = false →
      killed_by s (opt_after_read s) = false →
      (pass_events s).getLast? = some done_notice := by
    intro hk hd
    rw [he, hk, hd]
    simp only [Bool.false_eq_true, Bool.or_self, if_false]
    rw [← List.append_assoc, List.getLast?_append]
    simp
  have hexit : is_exit_key (opt_after_read s) = true → done_notice ∉ pass_events s := by
    intro hk
    rw [he, hk, switch_events_of_exit _ _ _ hk]
    simp only [if_true, Bool.true_or, List.append_nil, List.nil_append]
    exact done_not_in_menu
  have hdead : killed_by s (opt_after_read s) = true → done_notice ∉ pass_events s := by
    intro hd
    rw [he, hd]
    simp only [if_true, Bool.or_true, List.append_nil, List.mem_append, not_or]
    exact ⟨done_not_in_menu, done_not_in_killed_switch s _ _ hd⟩
  refine ⟨?_, ?_, ?_⟩
  · intro hn
    by_cases hk : is_exit_key (opt_after_read s) = true
    · rw [if_pos hk] at hr
      rw [hr] at hn
      cases hn
    · rw [if_neg hk] at hr
      by_cases hd : killed_by s (opt_after_read s) = true
      · rw [if_pos hd] at hr
        rw [hr] at hn
        cases hn
      · exact hrun (by simpa using hk) (by simpa using hd)
  · intro hn
    by_cases hk : is_exit_key (opt_after_read s) = true
    · exact hexit hk
    · rw [if_neg hk] at hr
      by_cases hd : killed_by s (opt_after_read s) = true
      · exact hdead hd
      · rw [if_neg hd] at hr
        exact absurd hr hn
  · intro c rest hread
    have ho := opt_after_read_of_read s c rest hread
    rw [ho] at hrun hexit he
    refine ⟨?_, ?_, ?_⟩
    · intro hx
      apply hexit
      rcases hx with h | h <;> simp [is_exit_key, h]
    · intro hx hd
      exact hrun (by simpa [is_exit_key] using hx) hd
    · intro hc
      obtain ⟨-, k2, k3, k4⟩ := spec_handling_unknown c hc
      rw [he, k2, k3, k4]
      rfl

/-- Witness of C10 (amended): the pass that reads "z" at process start ends
with the unknown-selection notice and "Done". -/
theorem done_closes_each_pass_witness :
    skip_whitespace (initial ['z'] 'a').stdin = ['z'] ∧
    'z' ∉ ['1', '2', '3', '4', '5', '6', '7', '8', 'X', 'x'] ∧
    pass_events (initial ['z'] 'a') = menu_events ++ [unknown_notice, done_notice] :=
  ⟨by decide, by decide,
   ((done_closes_each_pass (initial ['z'] 'a')).2.2 'z' [] (by decide)).2.2 (by decide)⟩

/-- Counterexample to C5: on the input "1" the first pass reads `1`; the read
of the second pass fails at end of input, and that pass enters
`use_after_free` again and prints no notice for an unknown selection. -/
theorem failed_read_repeats_last_scenario :
    skip_whitespace (iteration (initial ['1'] 'a')).1.stdin = [] ∧
    calls (pass_events (iteration (initial ['1'] 'a')).1) = [Scenario.use_after_free] ∧
    unknown_notice ∉ pass_events (iteration (initial ['1'] 'a')).1 := by
  decide

/-- C5 (amended): when the read of the selection fails (`scanf` finds no
character before the end of input), `opt` keeps the value it had and the
pass does what a pass that read that value does.  If the value is none of
`1` to `8`, `X`, `x`, no scenario function is entered, the notice for an
unknown selection is printed and the loop stays running.  If the value is a
key `1` to `8`, as after a pass that read that key, its scenario is entered
again and no notice is printed; the loop stays running when the scenario
comes back to `main`, and the process ends in this pass when it ends in the
scenario (key 3 or 5, where the platform makes the hazard fatal). -/
theorem failed_read_keeps_opt (s : State) (heof : skip_whitespace s.stdin = []) :
    (∀ rest, isspace s.opt = false →
      pass_events s = pass_events { s with stdin := s.opt :: rest } ∧
      (iteration s).2 = (iteration { s with stdin := s.opt :: rest }).2) ∧
    (s.opt ∉ ['1', '2', '3', '4', '5', '6', '7', '8', 'X', 'x'] →
      calls (pass_events s) = [] ∧
      pass_events s = menu_events ++ [unknown_notice, done_notice] ∧
      (iteration s).2 = Outcome.running) ∧
    (∀ f, (s.opt, f) ∈ [('1', Scenario.use_after_free), ('2', Scenario.heap_buffer_overflow),
        ('3', Scenario.stack_buffer_overflow), ('4', Scenario.global_buffer_overflow),
        ('5', Scenario.use_after_return), ('6', Scenario.use_after_scope),
        ('7', Scenario.use_uninitialized), ('8', Scenario.memory_leak)] →
      calls (pass_events s) = List.replicate (if s.opt = '8' then 1000 else 1) f ∧
      unknown_notice ∉ pass_events s ∧
      (s.opt ≠ '3' → s.opt ≠ '5' → (iteration s).2 = Outcome.running) ∧
      (s.opt = '3' → (iteration s).2 =
        if s.fatal Hazard.smashed_return then Outcome.killed else Outcome.running) ∧
      (s.opt = '5' → (iteration s).2 =
        if s.fatal Hazard.dead_local_read then Outcome.killed else Outcome.running)) := by
  have ho := opt_after_read_of_eof s heof
  have he := pass_events_eq s
  have hr := result_of_pass s
  have hh := handled_pass s
  rw [ho] at he hr hh
  refine ⟨?_, ?_, ?_⟩
  · intro rest hsp
    have hread : skip_whitespace ({ s with stdin := s.opt :: rest } : State).stdin =
        s.opt :: rest := by
      simp [skip_whitespace, hsp]
    have ho2 := opt_after_read_of_read _ _ _ hread
    have he2 := pass_events_eq { s with stdin := s.opt :: rest }
    have hr2 := result_of_pass { s with stdin := s.opt :: rest }
    rw [ho2] at he2 hr2
    have hkk : killed_by { s with stdin := s.opt :: rest } s.opt = killed_by s s.opt := rfl
    rw [hkk] at he2 hr2
    exact ⟨by rw [he, he2], by rw [hr, hr2]⟩
  · intro hc
    obtain ⟨-, k2, k3, k4⟩ := spec_handling_unknown s.opt hc
    rw [k2, k4] at hr
    rw [k2, k3, k4] at he
    simp only [Bool.false_eq_true, Bool.or_self, if_false] at he hr
    have he2 : pass_events s = menu_events ++ [unknown_notice, done_notice] := by
      rw [he]; rfl
    refine ⟨?_, he2, hr⟩
    rw [he2]
    simp [calls, menu_events, unknown_notice, done_notice]
  · intro f hkey
    obtain ⟨k1, k2⟩ := spec_handling_key s.opt f hkey
    have hr2 := result_cases s s.opt ho k2
    rw [k2] at hh
    simp only [Bool.false_eq_true, if_false] at hh
    rw [k1] at hh
    refine ⟨(calls_of_handled_replicate _ _ _ hh).1,
      (calls_of_handled_replicate _ _ _ hh).2, ?_, ?_, ?_⟩
    · intro h3 h5
      rw [hr2]
      simp [killed_by, h3, h5]
    · intro h3
      rw [hr2]
      simp [killed_by, h3]
    · intro h5
      rw [hr2]
      simp [killed_by, h5]

/-- Witness of C5 (amended): the second pass on the input "1". -/
theorem failed_read_keeps_opt_witness :
    skip_whitespace (iteration (initial ['1'] 'a')).1.stdin = [] ∧
    calls (pass_events (iteration (initial ['1'] 'a')).1) =
      List.replicate (if (iteration (initial ['1'] 'a')).1.opt = '8' then 1000 else 1)
        Scenario.use_after_free ∧
    (iteration (iteration (initial ['1'] 'a')).1).2 = Outcome.running :=
  ⟨by decide,
   ((failed_read_keeps_opt (iteration (initial ['1'] 'a')).1 (by decide)).2.2
      Scenario.use_after_free (by decide)).1,
   ((failed_read_keeps_opt (iteration (initial ['1'] 'a')).1 (by decide)).2.2
      Scenario.use_after_free (by decide)).2.2.1 (by decide) (by decide)⟩

/-! ## The whole loop -/

/-- C6: let the selections be the characters that the successive reads
obtain from the input, and let the scenarios of the selections before the
first exit key all come back to `main`.  Run for as many passes as there are
selections, the loop has made `main` return 0 if and only if `X` or `x` is
among them, and is still running otherwise.  What it handled is, in input
order, exactly the selections before the first exit key: for each its
scenario (a thousand entries into `memory_leak` for key 8) or the notice for
an unknown selection; the selections after the first exit key are left
unread, and more fuel changes nothing once `main` has returned.  Without an
exit key among a non-empty sequence of selections `main` never returns,
however long the loop goes on at end of input. -/
theorem loop_runs_until_exit_key (s : State)
    (hret : ∀ c ∈ (selections s.stdin).takeWhile (fun c => !is_exit_key c),
      killed_by s c = false) :
    ((main_loop (selections s.stdin).length s).2 = Outcome.returned 0 ↔
      ('X' ∈ selections s.stdin ∨ 'x' ∈ selections s.stdin)) ∧
    ((main_loop (selections s.stdin).length s).2 = Outcome.running ↔
      ¬ ('X' ∈ selections s.stdin ∨ 'x' ∈ selections s.stdin)) ∧
    handled (events_since s (main_loop (selections s.stdin).length s).1) =
      ((selections s.stdin).takeWhile (fun c => !is_exit_key c)).flatMap spec_handling ∧
    selections (main_loop (selections s.stdin).length s).1.stdin =
      ((selections s.stdin).dropWhile (fun c => !is_exit_key c)).tail ∧
    (('X' ∈ selections s.stdin ∨ 'x' ∈ selections s.stdin) → ∀ fuel,
      ((selections s.stdin).takeWhile (fun c => !is_exit_key c)).length + 1 ≤ fuel →
      main_loop fuel s = main_loop (selections s.stdin).length s) ∧
    (¬ ('X' ∈ selections s.stdin ∨ 'x' ∈ selections s.stdin) → selections s.stdin ≠ [] →
      ∀ fuel, (main_loop fuel s).2 = Outcome.running) := by
  obtain ⟨d, h1, h2, h3, h4, h5⟩ := main_loop_selections (selections s.stdin) s rfl hret
  have hiff := any_exit_iff (selections s.stdin)
  refine ⟨?_, ?_, ?_, h4, ?_, ?_⟩
  · rw [h3, ← hiff]
    by_cases ha : (selections s.stdin).any is_exit_key = true <;> simp [ha]
  · rw [h3, ← hiff]
    by_cases ha : (selections s.stdin).any is_exit_key = true <;> simp [ha]
  · rw [events_since_append s _ d h1, h2]
  · intro hx
    exact h5 (hiff.2 hx)
  · intro hx hne
    have hany : (selections s.stdin).any is_exit_key = false := by
      rw [← hiff] at hx
      simpa using hx
    rw [takeWhile_of_no_exit _ hany] at hret
    apply no_exit_never_returns (selections s.stdin) s rfl hany hret
    intro he
    exact absurd he hne

/-- Witness of C6: on the input "1 9x4" the loop handles `1` and `9`,
returns 0 at `x` and leaves `4` unread. -/
theorem loop_runs_until_exit_key_witness :
    'x' ∈ selections (initial ['1', ' ', '9', 'x', '4'] 'a').stdin ∧
    (main_loop 4 (initial ['1', ' ', '9', 'x', '4'] 'a')).2 = Outcome.returned 0 ∧
    handled (events_since (initial ['1', ' ', '9', 'x', '4'] 'a')
      (main_loop 4 (initial ['1', ' ', '9', 'x', '4'] 'a')).1) =
      [Handled.scenario Scenario.use_after_free, Handled.unrecognized] :=
  ⟨by decide,
   (loop_runs_until_exit_key (initial ['1', ' ', '9', 'x', '4'] 'a') (by decide)).1.2
     (Or.inr (by decide)),
   (loop_runs_until_exit_key (initial ['1', ' ', '9', 'x', '4'] 'a') (by decide)).2.2.1⟩

end BugGenerator
